import Mathlib

/-!
# RequestGroupMan (aria2): a shallow embedding of `src/RequestGroupMan.cc`

The scheduler owns three containers of download tasks (`_requestGroups`,
`_reservedGroups`, `_spentGroups`) and a concurrency ceiling.  Every member
function is embedded as a total Lean function.  Calls into the collaborators
(`RequestGroup`, `BtProgressInfoFile`, `DownloadEngine`, the logger) are
recorded in an event trace; what a collaborator answers is read from the task
record (status queries) or from a `Collaborators` parameter (calls that can
throw or that produce new objects).  A `RecoverableException` that leaves a
member function is recorded in the `escaped` flag of the outcome, together
with the state the object is left in.
-/

namespace Aria2

/-- An engine command, as produced by `RequestGroup::createInitialCommand`. -/
abbrev Command := Nat

/-- The status queries of a `RequestGroup` that `RequestGroupMan.cc` reads.
`addr` is the address of the object, what `RequestGroupHandle::get()`
returns: two handles denote the same task exactly when their `addr` agree.
`numCommand` is the count of outstanding commands (`getNumCommand()`). -/
structure RequestGroup where
  addr : Nat
  gid : Int
  uris : List String
  filePath : String
  numCommand : Nat
  downloadFinished : Bool
  allDownloadFinished : Bool
  preLocalFileCheckEnabled : Bool
  dependencyResolved : Bool
deriving DecidableEq, Repr

/-- The calls into collaborators whose answer is not a status query:
`saveThrows g` and `removeFileThrows g` tell whether
`g->getProgressInfoFile()->save()` / `->removeFile()` throw a
`RecoverableException`; `postDownloadProcessing g` is the list of follow-up
groups; `createInitialCommand g` is `none` when the call throws a
`RecoverableException`. -/
structure Collaborators where
  saveThrows : RequestGroup → Bool
  removeFileThrows : RequestGroup → Bool
  postDownloadProcessing : RequestGroup → List RequestGroup
  createInitialCommand : RequestGroup → Option (List Command)

/-- One observable call made by the scheduler, in program order. -/
inductive Event where
  | closeFile (g : RequestGroup)
  | notice (path : String)
  | removeFile (g : RequestGroup)
  | save (g : RequestGroup)
  | postDownloadProcessing (g : RequestGroup)
  | releaseRuntimeResource (g : RequestGroup)
  | createInitialCommand (g : RequestGroup)
  | addCommand (commands : List Command)
  | error (g : RequestGroup)
  | debug (count : Int)
deriving DecidableEq, Repr

/-- The data members of `RequestGroupMan`. -/
structure RequestGroupMan where
  requestGroups : List RequestGroup
  reservedGroups : List RequestGroup
  spentGroups : List RequestGroup
  maxSimultaneousDownloads : Int
deriving DecidableEq, Repr

/-- What a member function leaves behind: the object, the calls it made, and
whether a `RecoverableException` left the function. -/
structure Outcome where
  man : RequestGroupMan
  trace : List Event
  escaped : Bool
deriving DecidableEq, Repr

/-- Conversion of an integer to `int32_t` (two's complement wrap-around). -/
def toInt32 (x : Int) : Int :=
  (x + 2147483648) % 4294967296 - 2147483648

/-- The algorithm `copy(first, last, front_inserter(dst))`: every element of
the source range, in iteration order, is pushed to the front of `dst`. -/
def copyFrontInserter (src dst : List RequestGroup) : List RequestGroup :=
  src.foldl (fun acc g => g :: acc) dst

/-! ## `downloadFinished` -/

/-- The loop of `RequestGroupMan::downloadFinished` over `_requestGroups`. -/
def downloadFinishedLoop : List RequestGroup → Bool
  | [] => true
  | g :: rest =>
    if g.numCommand > 0 || !g.downloadFinished then false
    else downloadFinishedLoop rest

/-- `RequestGroupMan::downloadFinished`. -/
def downloadFinished (m : RequestGroupMan) : Bool :=
  if !m.reservedGroups.isEmpty then false
  else downloadFinishedLoop m.requestGroups

/-! ## Bulk ingestion -/

/-- `RequestGroupMan::addRequestGroup`. -/
def addRequestGroup (m : RequestGroupMan) (group : RequestGroup) : RequestGroupMan :=
  { m with requestGroups := m.requestGroups ++ [group] }

/-- `RequestGroupMan::addReservedGroup(const RequestGroups&)`. -/
def addReservedGroups (m : RequestGroupMan) (groups : List RequestGroup) : RequestGroupMan :=
  { m with reservedGroups := m.reservedGroups ++ groups }

/-- `RequestGroupMan::addReservedGroup(const RequestGroupHandle&)`. -/
def addReservedGroup (m : RequestGroupMan) (group : RequestGroup) : RequestGroupMan :=
  { m with reservedGroups := m.reservedGroups ++ [group] }

/-! ## `removeStoppedGroup` -/

/-- The locals and members that the loop of `removeStoppedGroup` updates. -/
structure SweepState where
  count : Int
  temp : List RequestGroup
  reserved : List RequestGroup
  spent : List RequestGroup
  trace : List Event
deriving DecidableEq, Repr

/-- The tail of the `else` branch (lines 128-130): release, count, append to
`_spentGroups`. -/
def retireTail (g : RequestGroup) (st : SweepState) : SweepState :=
  { st with
    count := toInt32 (st.count + 1)
    spent := st.spent ++ [g]
    trace := st.trace ++ [Event.releaseRuntimeResource g] }

/-- Lines 115-119: post-processing of a finished group; the follow-ups are
copied in reverse through a `front_inserter` into `_reservedGroups`. -/
def postProcess (c : Collaborators) (g : RequestGroup) (st : SweepState) : SweepState :=
  let nextGroups := c.postDownloadProcessing g
  let st := { st with trace := st.trace ++ [Event.postDownloadProcessing g] }
  if nextGroups.length > 0 then
    { st with
      reserved := copyFrontInserter nextGroups.reverse st.reserved
      trace := st.trace ++ [Event.debug (toInt32 nextGroups.length)] }
  else st

/-- One iteration of the loop of `removeStoppedGroup` (lines 103-131).
`Except.error st` is the state at the moment a `RecoverableException` leaves
the loop: the calls in the `downloadFinished()` branch are outside any `try`. -/
def sweepStep (c : Collaborators) (g : RequestGroup) (st : SweepState) :
    Except SweepState SweepState :=
  if g.numCommand > 0 then
    Except.ok { st with temp := st.temp ++ [g] }
  else
    let st := { st with trace := st.trace ++ [Event.closeFile g] }
    if g.downloadFinished then
      let st := { st with trace := st.trace ++ [Event.notice g.filePath] }
      if g.allDownloadFinished then
        let st := { st with trace := st.trace ++ [Event.removeFile g] }
        if c.removeFileThrows g then Except.error st
        else Except.ok (retireTail g (postProcess c g st))
      else
        let st := { st with trace := st.trace ++ [Event.save g] }
        if c.saveThrows g then Except.error st
        else Except.ok (retireTail g (postProcess c g st))
    else
      let st := { st with trace := st.trace ++ [Event.save g] }
      let st :=
        if c.saveThrows g then { st with trace := st.trace ++ [Event.error g] }
        else st
      Except.ok (retireTail g st)

/-- The `for` loop of `removeStoppedGroup` over `_requestGroups`. -/
def sweepLoop (c : Collaborators) : List RequestGroup → SweepState → Except SweepState SweepState
  | [], st => Except.ok st
  | g :: rest, st =>
    match sweepStep c g st with
    | Except.ok st1 => sweepLoop c rest st1
    | Except.error st1 => Except.error st1

/-- The locals `count = 0` and `temp` (empty) and the members, on entry to
`removeStoppedGroup`. -/
def sweepInit (m : RequestGroupMan) : SweepState :=
  { count := 0, temp := [], reserved := m.reservedGroups, spent := m.spentGroups, trace := [] }

/-- `RequestGroupMan::removeStoppedGroup`.  When an exception leaves the loop,
`_requestGroups` has not been assigned yet. -/
def removeStoppedGroup (c : Collaborators) (m : RequestGroupMan) : Outcome :=
  match sweepLoop c m.requestGroups (sweepInit m) with
  | Except.ok st =>
    { man := { m with requestGroups := st.temp, reservedGroups := st.reserved,
                      spentGroups := st.spent }
      trace := if st.count > 0 then st.trace ++ [Event.debug st.count] else st.trace
      escaped := false }
  | Except.error st =>
    { man := { m with reservedGroups := st.reserved, spentGroups := st.spent }
      trace := st.trace
      escaped := true }

/-! ## `fillRequestGroupFromReserver` -/

/-- The locals and members that the loop of `fillRequestGroupFromReserver`
updates. -/
structure FillState where
  count : Int
  temp : List RequestGroup
  active : List RequestGroup
  reserved : List RequestGroup
  trace : List Event
deriving DecidableEq, Repr

/-- The `for` loop of `fillRequestGroupFromReserver` (lines 144-161).  The
first argument is `_reservedGroups`, the second the loop variable `num`; the
step `--num` runs after every iteration, also after `continue`. -/
def fillLoop (c : Collaborators) :
    List RequestGroup → Int → Int → List RequestGroup → List RequestGroup → List Event → FillState
  | [], _, count, temp, active, trace =>
    { count := count, temp := temp, active := active, reserved := [], trace := trace }
  | g :: rest, num, count, temp, active, trace =>
    if num > 0 then
      if !g.dependencyResolved then
        fillLoop c rest (num - 1) count (g :: temp) active trace
      else
        match c.createInitialCommand g with
        | some commands =>
          fillLoop c rest (num - 1) (toInt32 (count + 1)) temp (active ++ [g])
            (trace ++ [Event.createInitialCommand g, Event.addCommand commands])
        | none =>
          fillLoop c rest (num - 1) count temp (active ++ [g])
            (trace ++ [Event.createInitialCommand g, Event.error g])
    else
      { count := count, temp := temp, active := active, reserved := g :: rest, trace := trace }

/-- `RequestGroupMan::fillRequestGroupFromReserver`.  An exception that leaves
`removeStoppedGroup` leaves this function too. -/
def fillRequestGroupFromReserver (c : Collaborators) (m : RequestGroupMan) : Outcome :=
  let s := removeStoppedGroup c m
  if s.escaped then s
  else
    let num := toInt32 (s.man.maxSimultaneousDownloads - (s.man.requestGroups.length : Int))
    let r := fillLoop c s.man.reservedGroups num 0 [] s.man.requestGroups s.trace
    { man := { s.man with requestGroups := r.active,
                          reservedGroups := copyFrontInserter r.temp r.reserved }
      trace := if r.count > 0 then r.trace ++ [Event.debug r.count] else r.trace
      escaped := false }

/-! ## Reporting -/

/-- The manipulator `setw(n)` applied to the next string insertion of a fresh
stream: fill characters (spaces) go before the text, up to width `n`. -/
def setw (n : Nat) (s : String) : String :=
  String.mk (List.replicate (n - s.length) ' ') ++ s

/-- `RequestGroupMan::formatDownloadResult`. -/
def formatDownloadResult (status : String) (g : RequestGroup) : String :=
  let o := setw 3 (toString g.gid) ++ "|" ++ setw 4 status ++ "|"
  if g.downloadFinished then
    o ++ g.filePath
  else
    match g.uris with
    | [] =>
      if g.filePath.isEmpty then o ++ "n/a" else o ++ g.filePath
    | front :: _ =>
      let o := o ++ front
      if g.uris.length > 1 then
        o ++ " (" ++ toString (g.uris.length - 1) ++ "more)"
      else o

/-- The text that `formatDownloadResult` streams after the second `"|"`
(lines 241-257). -/
def pathOrUriField (g : RequestGroup) : String :=
  if g.downloadFinished then g.filePath
  else
    match g.uris with
    | [] => if g.filePath.isEmpty then "n/a" else g.filePath
    | front :: _ =>
      if g.uris.length > 1 then
        front ++ " (" ++ toString (g.uris.length - 1) ++ "more)"
      else front

/-- The header written by `showDownloadResults`: an empty line and four
lines of text, the last one a rule whose third column is 70 `=` signs. -/
def resultsHeader : String :=
  "\n" ++ "Download Results:" ++ "\n"
    ++ " (OK):download completed.(ERR):error occurred.(INPR):download in-progress." ++ "\n"
    ++ "gid|stat|path/URI" ++ "\n"
    ++ "===+====+" ++ String.mk (List.replicate 70 '=') ++ "\n"

/-- One of the two loops of `showDownloadResults`: each group adds one line
to the stream, tagged `"OK"` when finished and `other` when not. -/
def showLoop (other : String) : List RequestGroup → String → String
  | [], o => o
  | g :: rest, o =>
    showLoop other rest
      (o ++ formatDownloadResult (if g.downloadFinished then "OK" else other) g ++ "\n")

/-- `RequestGroupMan::showDownloadResults`: the text written to the stream. -/
def showDownloadResults (m : RequestGroupMan) : String :=
  showLoop "INPR" m.requestGroups (showLoop "ERR" m.spentGroups resultsHeader)

/-! ## `isSameFileBeingDownloaded` -/

/-- The loop of `isSameFileBeingDownloaded` over `_requestGroups`. -/
def sameFileLoop (requestGroup : RequestGroup) : List RequestGroup → Bool
  | [] => false
  | g :: rest =>
    if g.addr != requestGroup.addr && g.filePath == requestGroup.filePath then true
    else sameFileLoop requestGroup rest

/-- `RequestGroupMan::isSameFileBeingDownloaded`. -/
def isSameFileBeingDownloaded (m : RequestGroupMan) (requestGroup : RequestGroup) : Bool :=
  if !requestGroup.preLocalFileCheckEnabled then false
  else sameFileLoop requestGroup m.requestGroups

/-! ## Read accessors -/

/-- `RequestGroupMan::countRequestGroup`: the size of `_requestGroups`,
converted to the `int32_t` return type. -/
def countRequestGroup (m : RequestGroupMan) : Int :=
  toInt32 (m.requestGroups.length : Int)

/-- What `getRequestGroup` hands back: a handle to a group, the null handle
(`return 0`), or nothing defined (`operator[]` outside the container). -/
inductive Lookup where
  | found (g : RequestGroup)
  | null
  | undefined
deriving DecidableEq, Repr

/-- `RequestGroupMan::getRequestGroup`: the index is compared with the size
converted to `int32_t`. -/
def getRequestGroup (m : RequestGroupMan) (index : Int) : Lookup :=
  if index < toInt32 (m.requestGroups.length : Int) then
    if index < 0 then Lookup.undefined
    else
      match m.requestGroups[index.toNat]? with
      | some g => Lookup.found g
      | none => Lookup.undefined
  else Lookup.null

/-! ## `getInitialCommands` -/

/-- The locals and members that the loop of `getInitialCommands` updates;
`kept` is the part of `_requestGroups` before the iterator. -/
structure InitialState where
  commands : List Command
  kept : List RequestGroup
  reserved : List RequestGroup
  trace : List Event
deriving DecidableEq, Repr

/-- The loop of `getInitialCommands` (lines 171-187); the argument is the part
of `_requestGroups` from the iterator on.  `erase` removes the group at the
iterator and leaves the iterator on its successor. -/
def initialLoop (c : Collaborators) : List RequestGroup → InitialState → InitialState
  | [], st => st
  | g :: rest, st =>
    if g.dependencyResolved then
      match c.createInitialCommand g with
      | some nextCommands =>
        initialLoop c rest
          { st with
            commands := st.commands ++ nextCommands
            kept := st.kept ++ [g]
            trace := st.trace ++ [Event.createInitialCommand g] }
      | none =>
        initialLoop c rest
          { st with trace := st.trace ++ [Event.createInitialCommand g, Event.error g] }
    else
      initialLoop c rest { st with reserved := g :: st.reserved }

/-- `RequestGroupMan::getInitialCommands`: what it leaves behind and the
command list it returns. -/
def getInitialCommands (c : Collaborators) (m : RequestGroupMan) : Outcome × List Command :=
  let st := initialLoop c m.requestGroups
    { commands := [], kept := [], reserved := m.reservedGroups, trace := [] }
  ({ man := { m with requestGroups := st.kept, reservedGroups := st.reserved }
     trace := st.trace
     escaped := false },
   st.commands)

/-! ## `save` -/

/-- The loop of `RequestGroupMan::save` (lines 193-205).  `Except.error` holds
the calls made when a `RecoverableException` leaves the loop: `removeFile()`
is called outside the `try`. -/
def saveLoop (c : Collaborators) : List RequestGroup → List Event → Except (List Event) (List Event)
  | [], trace => Except.ok trace
  | g :: rest, trace =>
    if g.allDownloadFinished then
      let trace := trace ++ [Event.removeFile g]
      if c.removeFileThrows g then Except.error trace
      else saveLoop c rest trace
    else
      let trace := trace ++ [Event.save g]
      let trace := if c.saveThrows g then trace ++ [Event.error g] else trace
      saveLoop c rest trace

/-- `RequestGroupMan::save`. -/
def save (c : Collaborators) (m : RequestGroupMan) : Outcome :=
  match saveLoop c m.requestGroups [] with
  | Except.ok trace => { man := m, trace := trace, escaped := false }
  | Except.error trace => { man := m, trace := trace, escaped := true }

/-! ## Vocabulary of the statements -/

/-- Number of entries of `reserved` that the loop of
`fillRequestGroupFromReserver` pops when it starts with `num` slots. -/
def scanCount (num : Int) (reserved : List RequestGroup) : Nat :=
  min num.toNat reserved.length

/-- The slot count `num` with which the loop of
`fillRequestGroupFromReserver` starts in state `m`. -/
def slots (m : RequestGroupMan) : Int :=
  toInt32 (m.maxSimultaneousDownloads - (m.requestGroups.length : Int))

/-- The groups with outstanding commands. -/
def isRunning (g : RequestGroup) : Bool := decide (g.numCommand > 0)

/-- Whether an event is a call of `save()` or `removeFile()` on a progress
info file. -/
def isPersistenceCall : Event → Bool
  | Event.save _ => true
  | Event.removeFile _ => true
  | _ => false

/-- The persistence call the retirement sweep owes a stopped group: discard
when it is finished and all-finished, persist in every other case. -/
def persistenceChoice (g : RequestGroup) : Event :=
  if g.downloadFinished && g.allDownloadFinished then Event.removeFile g else Event.save g

/-- Whether the persistence call made for a stopped group in the
`downloadFinished()` branch, which has no `try`, throws. -/
def unguardedThrows (c : Collaborators) (g : RequestGroup) : Bool :=
  g.downloadFinished &&
    (if g.allDownloadFinished then c.removeFileThrows g else c.saveThrows g)

/-- The rows of the report as the specification lists them: one per spent
group tagged `OK`/`ERR`, then one per active group tagged `OK`/`INPR`. -/
def reportRows (m : RequestGroupMan) : List String :=
  m.spentGroups.map
      (fun g => formatDownloadResult (if g.downloadFinished then "OK" else "ERR") g)
    ++ m.requestGroups.map
      (fun g => formatDownloadResult (if g.downloadFinished then "OK" else "INPR") g)

/-- The text of a list of rows, each followed by a line break. -/
def writeLines : List String → String
  | [] => ""
  | row :: rest => row ++ "\n" ++ writeLines rest

/-- The first two columns of a report row, with their separators. -/
def rowColumns (status : String) (g : RequestGroup) : String :=
  setw 3 (toString g.gid) ++ "|" ++ setw 4 status ++ "|"

/-- The third field of a report row as the specification words it: the path
when finished; else the first locator, with `" (N more)"` when there are
more; else the path when non-empty; else `"n/a"`. -/
def specPathOrUri (g : RequestGroup) : String :=
  if g.downloadFinished then g.filePath
  else
    match g.uris with
    | first :: _ =>
      if g.uris.length > 1 then first ++ " (" ++ toString (g.uris.length - 1) ++ " more)"
      else first
    | [] => if g.filePath.isEmpty then "n/a" else g.filePath

/-- The command lists handed to `DownloadEngine::addCommand`, in order. -/
def submittedCommands : List Event → List (List Command)
  | [] => []
  | Event.addCommand commands :: rest => commands :: submittedCommands rest
  | _ :: rest => submittedCommands rest

/-- Whether an event is a call of `postDownloadProcessing()`. -/
def isPostProcessingCall : Event → Bool
  | Event.postDownloadProcessing _ => true
  | _ => false

/-- The stopped groups that report finished. -/
def isStoppedFinished (g : RequestGroup) : Bool :=
  !decide (g.numCommand > 0) && g.downloadFinished

/-- The follow-up blocks of the groups `S1, ..., Sk`, last block first:
`Bk ++ ... ++ B1`. -/
def followUpBlocks (c : Collaborators) : List RequestGroup → List RequestGroup
  | [] => []
  | s :: rest => followUpBlocks c rest ++ c.postDownloadProcessing s

/-- The groups of the active list that `getInitialCommands` keeps: dependency
resolved and command creation succeeded. -/
def isStarted (c : Collaborators) (g : RequestGroup) : Bool :=
  g.dependencyResolved && (c.createInitialCommand g).isSome

/-- The concatenation of the command sets of the groups of a list, a failed
creation counting as no command. -/
def commandsOf (c : Collaborators) : List RequestGroup → List Command
  | [] => []
  | g :: rest => (c.createInitialCommand g).getD [] ++ commandsOf c rest

/-- The call `RequestGroupMan::save` owes an active group: discard when
all-finished, persist otherwise. -/
def saveChoice (g : RequestGroup) : Event :=
  if g.allDownloadFinished then Event.removeFile g else Event.save g

/-- Text `s` right-aligned in a column of width `w`: blanks on the left. -/
def rightAligned (w : Nat) (s : String) : String :=
  String.mk (List.replicate (w - s.length) ' ') ++ s

/-- Text `s` left-aligned in a column of width `w`: blanks on the right. -/
def leftAligned (w : Nat) (s : String) : String :=
  s ++ String.mk (List.replicate (w - s.length) ' ')

/-- No task occurs twice in `active ++ reserved ++ spent`, tasks being told
apart by their address. -/
def singleContainer (m : RequestGroupMan) : Prop :=
  ((m.requestGroups ++ m.reservedGroups ++ m.spentGroups).map (fun g => g.addr)).Nodup

/-! ## Concrete tasks and collaborators for the scenarios -/

/-- A stopped, unfinished, dependency-resolved group at address `n`. -/
def sampleGroup (n : Nat) : RequestGroup :=
  { addr := n, gid := n, uris := [], filePath := "", numCommand := 0,
    downloadFinished := false, allDownloadFinished := false,
    preLocalFileCheckEnabled := false, dependencyResolved := true }

/-- Collaborators for which no call throws and post-processing yields no
follow-up; the initial command of a group is its address. -/
def quietCollaborators : Collaborators :=
  { saveThrows := fun _ => false, removeFileThrows := fun _ => false,
    postDownloadProcessing := fun _ => [], createInitialCommand := fun g => some [g.addr] }

/-- Collaborators for which `save()` throws for the group at address 1 only. -/
def failingSaveCollaborators : Collaborators :=
  { quietCollaborators with saveThrows := fun g => g.addr == 1 }

/-- The admission scenario: ceiling 2, nothing active, reserved `T1`, `T2`
(dependency unresolved), `T3`. -/
def admissionScenario : RequestGroupMan :=
  { requestGroups := []
    reservedGroups :=
      [sampleGroup 1, { sampleGroup 2 with dependencyResolved := false }, sampleGroup 3]
    spentGroups := []
    maxSimultaneousDownloads := 2 }

/-- Ceiling 1, nothing active, reserved `T2` (dependency unresolved), `T3`. -/
def blockedHeadScenario : RequestGroupMan :=
  { requestGroups := []
    reservedGroups := [{ sampleGroup 2 with dependencyResolved := false }, sampleGroup 3]
    spentGroups := []
    maxSimultaneousDownloads := 1 }

/-- A state at the lower end of `int32_t`: one running group, one reserved
group, ceiling `INT32_MIN`. -/
def wrapScenario : RequestGroupMan :=
  { requestGroups := [{ sampleGroup 1 with numCommand := 1 }]
    reservedGroups := [sampleGroup 2]
    spentGroups := []
    maxSimultaneousDownloads := -2147483648 }

/-- Ceiling 3, one running group, four resolved reserved groups. -/
def ceilingScenario : RequestGroupMan :=
  { requestGroups := [{ sampleGroup 1 with numCommand := 1 }]
    reservedGroups := [sampleGroup 2, sampleGroup 3, sampleGroup 4, sampleGroup 5]
    spentGroups := []
    maxSimultaneousDownloads := 3 }

/-- Ceiling 0 with two running groups that were added directly. -/
def fullScenario : RequestGroupMan :=
  { requestGroups := [{ sampleGroup 1 with numCommand := 1 }, { sampleGroup 2 with numCommand := 2 }]
    reservedGroups := [sampleGroup 3]
    spentGroups := []
    maxSimultaneousDownloads := 0 }

/-- Two stopped groups: `A` (address 1) finished but not all-finished, then
`B` (address 2) unfinished. -/
def resilienceScenario : RequestGroupMan :=
  { requestGroups := [{ sampleGroup 1 with downloadFinished := true }, sampleGroup 2]
    reservedGroups := []
    spentGroups := []
    maxSimultaneousDownloads := 5 }

/-- A mixed active list: running, stopped unfinished, stopped finished and
all-finished, stopped finished only. -/
def sweepScenario : RequestGroupMan :=
  { requestGroups :=
      [{ sampleGroup 1 with numCommand := 2 }, sampleGroup 2,
       { sampleGroup 3 with downloadFinished := true, allDownloadFinished := true },
       { sampleGroup 4 with downloadFinished := true }]
    reservedGroups := [sampleGroup 9]
    spentGroups := [sampleGroup 8]
    maxSimultaneousDownloads := 5 }

/-- The report scenario: spent `A` (finished), `B` (not finished); active `C`
(finished). -/
def reportScenario : RequestGroupMan :=
  { requestGroups := [{ sampleGroup 3 with downloadFinished := true, filePath := "c.iso" }]
    reservedGroups := []
    spentGroups :=
      [{ sampleGroup 1 with downloadFinished := true, filePath := "a.iso" },
       { sampleGroup 2 with uris := ["http://h/b.iso"] }]
    maxSimultaneousDownloads := 5 }

/-- An unfinished group with two source locators. -/
def twoUriGroup : RequestGroup :=
  { sampleGroup 7 with uris := ["http://a/f", "http://b/f"], filePath := "f" }

/-- Ceiling 4, nothing active, reserved `D1`, `T2`, `D3`, `T4`, `T5` where
`D1` and `D3` have an unresolved dependency. -/
def deferralScenario : RequestGroupMan :=
  { requestGroups := []
    reservedGroups :=
      [{ sampleGroup 1 with dependencyResolved := false }, sampleGroup 2,
       { sampleGroup 3 with dependencyResolved := false }, sampleGroup 4, sampleGroup 5]
    spentGroups := []
    maxSimultaneousDownloads := 4 }

/-- A finished group with GID 1 and destination path `p`. -/
def finishedGroup : RequestGroup :=
  { sampleGroup 1 with downloadFinished := true, filePath := "p" }

/-- Collaborators for which `createInitialCommand` throws for the group at
address 1 and yields two commands for every other group. -/
def failingCommandCollaborators : Collaborators :=
  { quietCollaborators with
    createInitialCommand := fun g => if g.addr == 1 then none else some [g.addr, g.addr + 100] }

/-- Collaborators for which `removeFile()` throws for the group at address 1
only. -/
def failingRemoveCollaborators : Collaborators :=
  { quietCollaborators with removeFileThrows := fun g => g.addr == 1 }

/-- Collaborators whose post-processing of a group at address `a` yields the
two follow-ups at addresses `10 * a + 1` and `10 * a + 2`; `save()` throws
for the group at address 1. -/
def followUpCollaborators : Collaborators :=
  { failingSaveCollaborators with
    postDownloadProcessing :=
      fun g => [sampleGroup (10 * g.addr + 1), sampleGroup (10 * g.addr + 2)] }

/-- An active list for the initial command pass: `T1` (command creation
fails under `failingCommandCollaborators`), `D2` unresolved, `T3`, `D4`
unresolved, `T5`; one reserved group. -/
def initialScenario : RequestGroupMan :=
  { requestGroups :=
      [sampleGroup 1, { sampleGroup 2 with dependencyResolved := false }, sampleGroup 3,
       { sampleGroup 4 with dependencyResolved := false }, sampleGroup 5]
    reservedGroups := [sampleGroup 9]
    spentGroups := [sampleGroup 8]
    maxSimultaneousDownloads := 5 }

/-- Two active groups: `A` (address 1) all-finished, then `B` (address 2). -/
def saveScenario : RequestGroupMan :=
  { requestGroups := [{ sampleGroup 1 with allDownloadFinished := true }, sampleGroup 2]
    reservedGroups := [sampleGroup 9]
    spentGroups := [sampleGroup 8]
    maxSimultaneousDownloads := 5 }

/-- One reserved group whose command creation fails under
`failingCommandCollaborators`, followed by one for which it succeeds. -/
def failedAdmissionScenario : RequestGroupMan :=
  { requestGroups := []
    reservedGroups := [sampleGroup 1, sampleGroup 2]
    spentGroups := []
    maxSimultaneousDownloads := 5 }

/-- Two stopped finished groups (addresses 2 and 3) around a running one,
with one reserved group. -/
def chainingScenario : RequestGroupMan :=
  { requestGroups :=
      [{ sampleGroup 2 with downloadFinished := true },
       { sampleGroup 4 with numCommand := 1 },
       { sampleGroup 3 with downloadFinished := true, allDownloadFinished := true }]
    reservedGroups := [sampleGroup 9]
    spentGroups := []
    maxSimultaneousDownloads := 5 }

/-- One stopped group that is not finished, one reserved group. -/
def unfinishedScenario : RequestGroupMan :=
  { requestGroups := [sampleGroup 2]
    reservedGroups := [sampleGroup 9]
    spentGroups := []
    maxSimultaneousDownloads := 5 }

/-- Stopped unfinished `B` (address 2) before stopped finished `A` (address
1); `save()` throws for `A` under `failingSaveCollaborators`. -/
def escapeScenario : RequestGroupMan :=
  { requestGroups := [sampleGroup 2, { sampleGroup 1 with downloadFinished := true }]
    reservedGroups := [sampleGroup 9]
    spentGroups := [sampleGroup 8]
    maxSimultaneousDownloads := 5 }

/-- Ceiling `INT32_MIN + 1` with two running groups and two reserved
groups. -/
def conservationWrapScenario : RequestGroupMan :=
  { requestGroups := [{ sampleGroup 1 with numCommand := 1 }, { sampleGroup 2 with numCommand := 3 }]
    reservedGroups := [sampleGroup 3, sampleGroup 4]
    spentGroups := []
    maxSimultaneousDownloads := -2147483647 }

/-- Ceiling 4 with one running group and reserved `T1` (command creation
fails under `failingCommandCollaborators`), `D3` unresolved, `T4`, `T5`,
`T6`. -/
def conservationScenario : RequestGroupMan :=
  { requestGroups := [{ sampleGroup 7 with numCommand := 1 }]
    reservedGroups :=
      [sampleGroup 1, { sampleGroup 3 with dependencyResolved := false }, sampleGroup 4,
       sampleGroup 5, sampleGroup 6]
    spentGroups := [sampleGroup 8]
    maxSimultaneousDownloads := 4 }

/-- An active list of `2^31` handles, one more than `INT32_MAX`. -/
def overflowScenario : RequestGroupMan :=
  { requestGroups := List.replicate 2147483648 (sampleGroup 1)
    reservedGroups := []
    spentGroups := []
    maxSimultaneousDownloads := 5 }

/-! ## Auxiliary facts -/

theorem copyFrontInserter_eq (src dst : List RequestGroup) :
    copyFrontInserter src dst = src.reverse ++ dst := by
  unfold copyFrontInserter
  induction src generalizing dst with
  | nil => rfl
  | cons g rest ih => simp [List.foldl_cons, ih]

theorem toInt32_eq_self (x : Int) (h1 : -2147483648 ≤ x) (h2 : x < 2147483648) :
    toInt32 x = x := by
  unfold toInt32
  omega

theorem scanCount_of_nonpos (num : Int) (reserved : List RequestGroup) (h : ¬ num > 0) :
    scanCount num reserved = 0 := by
  unfold scanCount
  have : num.toNat = 0 := by omega
  simp [this]

theorem scanCount_cons (num : Int) (g : RequestGroup) (rest : List RequestGroup) (h : num > 0) :
    scanCount num (g :: rest) = scanCount (num - 1) rest + 1 := by
  unfold scanCount
  have : num.toNat = (num - 1).toNat + 1 := by omega
  rw [this, List.length_cons]
  omega

theorem fillLoop_active (c : Collaborators) (reserved : List RequestGroup) :
    ∀ (num count : Int) (temp active : List RequestGroup) (trace : List Event),
      (fillLoop c reserved num count temp active trace).active
        = active ++ (reserved.take (scanCount num reserved)).filter (fun g => g.dependencyResolved) := by
  induction reserved with
  | nil => intro num count temp active trace; simp [fillLoop]
  | cons g rest ih =>
    intro num count temp active trace
    unfold fillLoop
    by_cases hnum : num > 0
    · rw [scanCount_cons num g rest hnum]
      cases hd : g.dependencyResolved with
      | false => simp [hnum, hd, ih]
      | true =>
        cases hc : c.createInitialCommand g with
        | none => simp [hnum, hd, ih]
        | some cmds => simp [hnum, hd, ih]
    · rw [scanCount_of_nonpos num (g :: rest) hnum]
      simp [hnum]

theorem fillLoop_temp (c : Collaborators) (reserved : List RequestGroup) :
    ∀ (num count : Int) (temp active : List RequestGroup) (trace : List Event),
      (fillLoop c reserved num count temp active trace).temp
        = ((reserved.take (scanCount num reserved)).filter
            (fun g => !g.dependencyResolved)).reverse ++ temp := by
  induction reserved with
  | nil => intro num count temp active trace; simp [fillLoop]
  | cons g rest ih =>
    intro num count temp active trace
    unfold fillLoop
    by_cases hnum : num > 0
    · rw [scanCount_cons num g rest hnum]
      cases hd : g.dependencyResolved with
      | false => simp [hnum, hd, ih]
      | true =>
        cases hc : c.createInitialCommand g with
        | none => simp [hnum, hd, ih]
        | some cmds => simp [hnum, hd, ih]
    · rw [scanCount_of_nonpos num (g :: rest) hnum]
      simp [hnum]

theorem fillLoop_reserved (c : Collaborators) (reserved : List RequestGroup) :
    ∀ (num count : Int) (temp active : List RequestGroup) (trace : List Event),
      (fillLoop c reserved num count temp active trace).reserved
        = reserved.drop (scanCount num reserved) := by
  induction reserved with
  | nil => intro num count temp active trace; simp [fillLoop]
  | cons g rest ih =>
    intro num count temp active trace
    unfold fillLoop
    by_cases hnum : num > 0
    · rw [scanCount_cons num g rest hnum]
      cases hd : g.dependencyResolved with
      | false => simp [hnum, hd, ih]
      | true =>
        cases hc : c.createInitialCommand g with
        | none => simp [hnum, hd, ih]
        | some cmds => simp [hnum, hd, ih]
    · rw [scanCount_of_nonpos num (g :: rest) hnum]
      simp [hnum]

theorem fill_requestGroups (c : Collaborators) (m : RequestGroupMan)
    (h : (removeStoppedGroup c m).escaped = false) :
    (fillRequestGroupFromReserver c m).man.requestGroups
      = (removeStoppedGroup c m).man.requestGroups
        ++ ((removeStoppedGroup c m).man.reservedGroups.take
              (scanCount (slots (removeStoppedGroup c m).man)
                (removeStoppedGroup c m).man.reservedGroups)).filter
            (fun g => g.dependencyResolved) := by
  simp [fillRequestGroupFromReserver, h, fillLoop_active, slots]

theorem fill_reservedGroups (c : Collaborators) (m : RequestGroupMan)
    (h : (removeStoppedGroup c m).escaped = false) :
    (fillRequestGroupFromReserver c m).man.reservedGroups
      = ((removeStoppedGroup c m).man.reservedGroups.take
              (scanCount (slots (removeStoppedGroup c m).man)
                (removeStoppedGroup c m).man.reservedGroups)).filter
            (fun g => !g.dependencyResolved)
        ++ (removeStoppedGroup c m).man.reservedGroups.drop
              (scanCount (slots (removeStoppedGroup c m).man)
                (removeStoppedGroup c m).man.reservedGroups) := by
  simp [fillRequestGroupFromReserver, h, fillLoop_temp, fillLoop_reserved, slots,
    copyFrontInserter_eq]

theorem postProcess_facts (c : Collaborators) (g : RequestGroup) (st : SweepState) :
    (postProcess c g st).temp = st.temp ∧ (postProcess c g st).spent = st.spent ∧
    (postProcess c g st).trace.filter isPersistenceCall = st.trace.filter isPersistenceCall := by
  simp only [postProcess]
  by_cases h : (c.postDownloadProcessing g).length > 0 <;> simp [h, isPersistenceCall]

theorem sweepStep_ok (c : Collaborators) (g : RequestGroup) (st st1 : SweepState)
    (h : sweepStep c g st = Except.ok st1) :
    st1.temp = st.temp ++ [g].filter isRunning ∧
    st1.spent = st.spent ++ [g].filter (fun g => !isRunning g) ∧
    st1.trace.filter isPersistenceCall
      = st.trace.filter isPersistenceCall
        ++ ([g].filter (fun g => !isRunning g)).map persistenceChoice ∧
    (isRunning g = true ∨ unguardedThrows c g = false) := by
  unfold sweepStep at h
  by_cases hn : g.numCommand > 0
  · simp only [hn, if_true] at h
    cases h
    simp [isRunning, hn]
  · simp only [hn, if_false] at h
    cases hf : g.downloadFinished with
    | false =>
      simp only [hf] at h
      cases h
      by_cases hs : c.saveThrows g = true <;>
        simp [isRunning, hn, hs, retireTail, isPersistenceCall, persistenceChoice, hf,
          unguardedThrows]
    | true =>
      simp only [hf, if_true] at h
      cases ha : g.allDownloadFinished with
      | false =>
        simp only [ha] at h
        by_cases hs : c.saveThrows g = true
        · simp [hs] at h
        · simp only [hs] at h
          cases h
          have hp := postProcess_facts c g
            { st with trace := st.trace ++ [Event.closeFile g] ++ [Event.notice g.filePath]
                        ++ [Event.save g] }
          simp [isRunning, hn, hs, retireTail, isPersistenceCall, persistenceChoice, hf, ha,
            unguardedThrows] at hp ⊢
          simp [hp]
      | true =>
        simp only [ha, if_true] at h
        by_cases hs : c.removeFileThrows g = true
        · simp [hs] at h
        · simp only [hs] at h
          cases h
          have hp := postProcess_facts c g
            { st with trace := st.trace ++ [Event.closeFile g] ++ [Event.notice g.filePath]
                        ++ [Event.removeFile g] }
          simp [isRunning, hn, hs, retireTail, isPersistenceCall, persistenceChoice, hf, ha,
            unguardedThrows] at hp ⊢
          simp [hp]

theorem sweepStep_error (c : Collaborators) (g : RequestGroup) (st st1 : SweepState)
    (h : sweepStep c g st = Except.error st1) :
    st1.temp = st.temp ∧ st1.spent = st.spent ∧ st1.reserved = st.reserved ∧
    st1.trace.filter isPersistenceCall
      = st.trace.filter isPersistenceCall ++ [persistenceChoice g] ∧
    isRunning g = false ∧ unguardedThrows c g = true := by
  unfold sweepStep at h
  by_cases hn : g.numCommand > 0
  · simp [hn] at h
  · simp only [hn, if_false] at h
    cases hf : g.downloadFinished with
    | false => simp [hf] at h
    | true =>
      simp only [hf, if_true] at h
      cases ha : g.allDownloadFinished with
      | false =>
        simp only [ha] at h
        by_cases hs : c.saveThrows g = true
        · simp only [hs, if_true] at h
          cases h
          simp [isRunning, hn, hs, isPersistenceCall, persistenceChoice, hf, ha, unguardedThrows]
        · simp [hs] at h
      | true =>
        simp only [ha, if_true] at h
        by_cases hs : c.removeFileThrows g = true
        · simp only [hs, if_true] at h
          cases h
          simp [isRunning, hn, hs, isPersistenceCall, persistenceChoice, hf, ha, unguardedThrows]
        · simp [hs] at h

theorem sweepLoop_ok (c : Collaborators) (l : List RequestGroup) :
    ∀ (st st1 : SweepState), sweepLoop c l st = Except.ok st1 →
      st1.temp = st.temp ++ l.filter isRunning ∧
      st1.spent = st.spent ++ l.filter (fun g => !isRunning g) ∧
      st1.trace.filter isPersistenceCall
        = st.trace.filter isPersistenceCall
          ++ (l.filter (fun g => !isRunning g)).map persistenceChoice ∧
      (∀ g ∈ l, isRunning g = true ∨ unguardedThrows c g = false) := by
  induction l with
  | nil =>
    intro st st1 h
    simp only [sweepLoop] at h
    cases h
    simp
  | cons g rest ih =>
    intro st st1 h
    simp only [sweepLoop] at h
    cases hstep : sweepStep c g st with
    | error e => simp [hstep] at h
    | ok st2 =>
      simp only [hstep] at h
      obtain ⟨a1, a2, a3, a4⟩ := sweepStep_ok c g st st2 hstep
      obtain ⟨b1, b2, b3, b4⟩ := ih st2 st1 h
      refine ⟨?_, ?_, ?_, ?_⟩
      · rw [b1, a1, List.append_assoc, ← List.filter_append]; rfl
      · rw [b2, a2, List.append_assoc, ← List.filter_append]; rfl
      · rw [b3, a3, List.append_assoc, ← List.map_append, ← List.filter_append]; rfl
      · intro x hx
        rcases List.mem_cons.mp hx with rfl | hx
        · exact a4
        · exact b4 x hx

theorem sweepLoop_error (c : Collaborators) (l : List RequestGroup) :
    ∀ (st st1 : SweepState), sweepLoop c l st = Except.error st1 →
      ∃ (pre : List RequestGroup) (g : RequestGroup) (post : List RequestGroup),
        l = pre ++ g :: post ∧
        (∀ x ∈ pre, isRunning x = true ∨ unguardedThrows c x = false) ∧
        isRunning g = false ∧ unguardedThrows c g = true ∧
        st1.temp = st.temp ++ pre.filter isRunning ∧
        st1.spent = st.spent ++ pre.filter (fun x => !isRunning x) ∧
        st1.trace.filter isPersistenceCall
          = st.trace.filter isPersistenceCall
            ++ ((pre ++ [g]).filter (fun x => !isRunning x)).map persistenceChoice := by
  induction l with
  | nil =>
    intro st st1 h
    simp [sweepLoop] at h
  | cons g rest ih =>
    intro st st1 h
    simp only [sweepLoop] at h
    cases hstep : sweepStep c g st with
    | error e =>
      simp only [hstep] at h
      cases h
      obtain ⟨e1, e2, _, e4, e5, e6⟩ := sweepStep_error c g st st1 hstep
      refine ⟨[], g, rest, rfl, ?_, e5, e6, ?_, ?_, ?_⟩
      · intro x hx; cases hx
      · simp [e1]
      · simp [e2]
      · simp [e4, e5]
    | ok st2 =>
      simp only [hstep] at h
      obtain ⟨a1, a2, a3, a4⟩ := sweepStep_ok c g st st2 hstep
      obtain ⟨pre, x, post, hl, hpre, hx1, hx2, b1, b2, b3⟩ := ih st2 st1 h
      refine ⟨g :: pre, x, post, by simp [hl], ?_, hx1, hx2, ?_, ?_, ?_⟩
      · intro y hy
        rcases List.mem_cons.mp hy with rfl | hy
        · exact a4
        · exact hpre y hy
      · rw [b1, a1, List.append_assoc, ← List.filter_append]; rfl
      · rw [b2, a2, List.append_assoc, ← List.filter_append]; rfl
      · rw [b3, a3, List.append_assoc, ← List.map_append, ← List.filter_append]; rfl

theorem removeStoppedGroup_of_ok (c : Collaborators) (m : RequestGroupMan) (st : SweepState)
    (hst : sweepLoop c m.requestGroups (sweepInit m) = Except.ok st) :
    removeStoppedGroup c m =
      { man := { m with requestGroups := st.temp, reservedGroups := st.reserved,
                        spentGroups := st.spent }
        trace := if st.count > 0 then st.trace ++ [Event.debug st.count] else st.trace
        escaped := false } := by
  simp [removeStoppedGroup, hst]

theorem removeStoppedGroup_of_error (c : Collaborators) (m : RequestGroupMan) (st : SweepState)
    (hst : sweepLoop c m.requestGroups (sweepInit m) = Except.error st) :
    removeStoppedGroup c m =
      { man := { m with reservedGroups := st.reserved, spentGroups := st.spent }
        trace := st.trace
        escaped := true } := by
  simp [removeStoppedGroup, hst]

theorem removeStoppedGroup_max (c : Collaborators) (m : RequestGroupMan) :
    (removeStoppedGroup c m).man.maxSimultaneousDownloads = m.maxSimultaneousDownloads := by
  cases hst : sweepLoop c m.requestGroups (sweepInit m) with
  | ok st => rw [removeStoppedGroup_of_ok c m st hst]
  | error st => rw [removeStoppedGroup_of_error c m st hst]

theorem removeStoppedGroup_escaped_iff (c : Collaborators) (m : RequestGroupMan) :
    (removeStoppedGroup c m).escaped = false ↔
      ∀ g ∈ m.requestGroups, isRunning g = true ∨ unguardedThrows c g = false := by
  cases hst : sweepLoop c m.requestGroups (sweepInit m) with
  | ok st =>
    rw [removeStoppedGroup_of_ok c m st hst]
    have h := (sweepLoop_ok c m.requestGroups _ st hst).2.2.2
    simp only [true_iff]
    exact h
  | error st =>
    rw [removeStoppedGroup_of_error c m st hst]
    obtain ⟨pre, g, post, hl, _, hg1, hg2, _⟩ := sweepLoop_error c m.requestGroups _ st hst
    simp only [Bool.true_eq_false, false_iff]
    intro hall
    have hmem : g ∈ m.requestGroups := by rw [hl]; simp
    rcases hall g hmem with h | h
    · rw [hg1] at h; cases h
    · rw [hg2] at h; cases h

theorem removeStoppedGroup_ok (c : Collaborators) (m : RequestGroupMan)
    (h : (removeStoppedGroup c m).escaped = false) :
    (removeStoppedGroup c m).man.requestGroups = m.requestGroups.filter isRunning ∧
    (removeStoppedGroup c m).man.spentGroups
      = m.spentGroups ++ m.requestGroups.filter (fun g => !isRunning g) ∧
    (removeStoppedGroup c m).trace.filter isPersistenceCall
      = (m.requestGroups.filter (fun g => !isRunning g)).map persistenceChoice := by
  cases hst : sweepLoop c m.requestGroups (sweepInit m) with
  | ok st =>
    rw [removeStoppedGroup_of_ok c m st hst]
    obtain ⟨a1, a2, a3, _⟩ := sweepLoop_ok c m.requestGroups _ st hst
    refine ⟨by simpa [sweepInit] using a1, by simpa [sweepInit] using a2, ?_⟩
    by_cases hc : st.count > 0
    · simpa [hc, isPersistenceCall, sweepInit] using a3
    · simpa [hc, sweepInit] using a3
  | error st =>
    rw [removeStoppedGroup_of_error c m st hst] at h
    cases h

theorem removeStoppedGroup_escaped (c : Collaborators) (m : RequestGroupMan)
    (h : (removeStoppedGroup c m).escaped = true) :
    ∃ (pre : List RequestGroup) (g : RequestGroup) (post : List RequestGroup),
      m.requestGroups = pre ++ g :: post ∧
      isRunning g = false ∧ unguardedThrows c g = true ∧
      (removeStoppedGroup c m).man.requestGroups = m.requestGroups ∧
      (removeStoppedGroup c m).man.spentGroups
        = m.spentGroups ++ pre.filter (fun x => !isRunning x) ∧
      (removeStoppedGroup c m).trace.filter isPersistenceCall
        = ((pre ++ [g]).filter (fun x => !isRunning x)).map persistenceChoice := by
  cases hst : sweepLoop c m.requestGroups (sweepInit m) with
  | ok st =>
    rw [removeStoppedGroup_of_ok c m st hst] at h
    cases h
  | error st =>
    rw [removeStoppedGroup_of_error c m st hst]
    obtain ⟨pre, g, post, hl, _, hg1, hg2, _, b2, b3⟩ :=
      sweepLoop_error c m.requestGroups _ st hst
    exact ⟨pre, g, post, hl, hg1, hg2, rfl, by simpa [sweepInit] using b2,
      by simpa [sweepInit] using b3⟩
/-! ## Admission: `fillRequestGroupFromReserver` -/

/-- Claim C1, evaluated on the code at the scenario of the specification:
with ceiling 2, nothing active and reserved `T1`, `T2` (dependency
unresolved), `T3`, the call returns with `_requestGroups = [T1]` and
`_reservedGroups = [T2, T3]`: the step `--num` also runs after `continue`, so
the deferred `T2` uses up the second slot and `T3` is not admitted.  With
ceiling 1 and reserved `T2` (unresolved), `T3`, nothing is admitted at all. -/
theorem fill_deferred_consumes_slot :
    (fillRequestGroupFromReserver quietCollaborators admissionScenario).escaped = false ∧
    (fillRequestGroupFromReserver quietCollaborators admissionScenario).man.requestGroups
      = [sampleGroup 1] ∧
    (fillRequestGroupFromReserver quietCollaborators admissionScenario).man.reservedGroups
      = [{ sampleGroup 2 with dependencyResolved := false }, sampleGroup 3] ∧
    (fillRequestGroupFromReserver quietCollaborators blockedHeadScenario).man.requestGroups
      = [] ∧
    (fillRequestGroupFromReserver quietCollaborators blockedHeadScenario).man.reservedGroups
      = [{ sampleGroup 2 with dependencyResolved := false }, sampleGroup 3] := by
  decide

/-- Claim C2 as stated fails at the lower end of `int32_t`: with ceiling
`INT32_MIN`, one running group and one reserved group, the sweep retires
nothing and `len(active) >= maxConcurrent`, yet the slot count wraps to
`INT32_MAX` and the reserved group is moved to `_requestGroups`. -/
theorem fill_moves_when_slot_count_wraps :
    (removeStoppedGroup quietCollaborators wrapScenario).escaped = false ∧
    ((removeStoppedGroup quietCollaborators wrapScenario).man.requestGroups.length : Int)
      ≥ wrapScenario.maxSimultaneousDownloads ∧
    slots (removeStoppedGroup quietCollaborators wrapScenario).man = 2147483647 ∧
    (fillRequestGroupFromReserver quietCollaborators wrapScenario).man.requestGroups
      = [{ sampleGroup 1 with numCommand := 1 }, sampleGroup 2] ∧
    (fillRequestGroupFromReserver quietCollaborators wrapScenario).man.reservedGroups = [] := by
  decide

/-- Claim C2, amended: when the sweep returns, (1) if afterwards
`len(active) <= maxConcurrent` (an `int32_t`) and every reserved group has its
dependency resolved, the call moves exactly the first
`min(maxConcurrent - len(active), len(reserved))` reserved groups, in queue
order, to the back of `_requestGroups` and ends with
`len(active) <= maxConcurrent`; (2) if afterwards
`len(active) >= maxConcurrent` and `maxConcurrent - len(active)` does not fall
below `INT32_MIN`, it moves no group at all. -/
theorem fill_respects_ceiling (c : Collaborators) (m : RequestGroupMan)
    (hret : (removeStoppedGroup c m).escaped = false) :
    (((removeStoppedGroup c m).man.requestGroups.length : Int) ≤ m.maxSimultaneousDownloads →
      m.maxSimultaneousDownloads < 2147483648 →
      (∀ g ∈ (removeStoppedGroup c m).man.reservedGroups, g.dependencyResolved = true) →
        (fillRequestGroupFromReserver c m).man.requestGroups
          = (removeStoppedGroup c m).man.requestGroups
            ++ (removeStoppedGroup c m).man.reservedGroups.take
                (min (m.maxSimultaneousDownloads
                        - ((removeStoppedGroup c m).man.requestGroups.length : Int)).toNat
                     (removeStoppedGroup c m).man.reservedGroups.length) ∧
        (fillRequestGroupFromReserver c m).man.reservedGroups
          = (removeStoppedGroup c m).man.reservedGroups.drop
                (min (m.maxSimultaneousDownloads
                        - ((removeStoppedGroup c m).man.requestGroups.length : Int)).toNat
                     (removeStoppedGroup c m).man.reservedGroups.length) ∧
        ((fillRequestGroupFromReserver c m).man.requestGroups.length : Int)
          ≤ m.maxSimultaneousDownloads) ∧
    (m.maxSimultaneousDownloads ≤ ((removeStoppedGroup c m).man.requestGroups.length : Int) →
      -2147483648 ≤ m.maxSimultaneousDownloads
        - ((removeStoppedGroup c m).man.requestGroups.length : Int) →
        (fillRequestGroupFromReserver c m).man.requestGroups
          = (removeStoppedGroup c m).man.requestGroups ∧
        (fillRequestGroupFromReserver c m).man.reservedGroups
          = (removeStoppedGroup c m).man.reservedGroups) := by
  have hA := fill_requestGroups c m hret
  have hR := fill_reservedGroups c m hret
  have hM := removeStoppedGroup_max c m
  constructor
  · intro hle hmax hres
    have hslots : slots (removeStoppedGroup c m).man
        = m.maxSimultaneousDownloads
          - ((removeStoppedGroup c m).man.requestGroups.length : Int) := by
      unfold slots
      rw [hM]
      apply toInt32_eq_self <;> omega
    rw [hslots] at hA hR
    simp only [scanCount] at hA hR
    have hfilt : ∀ l : List RequestGroup, (∀ g ∈ l, g.dependencyResolved = true) →
        l.filter (fun g => g.dependencyResolved) = l ∧
        l.filter (fun g => !g.dependencyResolved) = [] := by
      intro l hl
      constructor
      · exact List.filter_eq_self.mpr hl
      · apply List.filter_eq_nil_iff.mpr
        intro g hg
        simp [hl g hg]
    have htake : ∀ k : Nat,
        ((removeStoppedGroup c m).man.reservedGroups.take k).filter
            (fun g => g.dependencyResolved)
          = (removeStoppedGroup c m).man.reservedGroups.take k ∧
        ((removeStoppedGroup c m).man.reservedGroups.take k).filter
            (fun g => !g.dependencyResolved) = [] :=
      fun k => hfilt ((removeStoppedGroup c m).man.reservedGroups.take k)
        (fun g hg => hres g (List.mem_of_mem_take hg))
    rw [(htake _).1] at hA
    rw [(htake _).2] at hR
    refine ⟨hA, by simpa using hR, ?_⟩
    rw [hA, List.length_append, List.length_take]
    omega
  · intro hge hlow
    have hslots : slots (removeStoppedGroup c m).man
        = m.maxSimultaneousDownloads
          - ((removeStoppedGroup c m).man.requestGroups.length : Int) := by
      unfold slots
      rw [hM]
      apply toInt32_eq_self <;> omega
    have hk : scanCount (slots (removeStoppedGroup c m).man)
        (removeStoppedGroup c m).man.reservedGroups = 0 := by
      apply scanCount_of_nonpos
      rw [hslots]
      omega
    rw [hk] at hA hR
    constructor
    · simpa using hA
    · simpa using hR

/-- The amended claim C2 at two concrete states: ceiling 3 with one running
group and four resolved reserved groups admits two; ceiling 0 with two
running groups admits none. -/
theorem fill_respects_ceiling_witness :
    ((fillRequestGroupFromReserver quietCollaborators ceilingScenario).man.requestGroups
        = (removeStoppedGroup quietCollaborators ceilingScenario).man.requestGroups
          ++ (removeStoppedGroup quietCollaborators ceilingScenario).man.reservedGroups.take
              (min (ceilingScenario.maxSimultaneousDownloads
                      - ((removeStoppedGroup quietCollaborators
                            ceilingScenario).man.requestGroups.length : Int)).toNat
                   (removeStoppedGroup quietCollaborators
                      ceilingScenario).man.reservedGroups.length) ∧
      (fillRequestGroupFromReserver quietCollaborators ceilingScenario).man.reservedGroups
        = (removeStoppedGroup quietCollaborators ceilingScenario).man.reservedGroups.drop
              (min (ceilingScenario.maxSimultaneousDownloads
                      - ((removeStoppedGroup quietCollaborators
                            ceilingScenario).man.requestGroups.length : Int)).toNat
                   (removeStoppedGroup quietCollaborators
                      ceilingScenario).man.reservedGroups.length) ∧
      ((fillRequestGroupFromReserver quietCollaborators
            ceilingScenario).man.requestGroups.length : Int)
        ≤ ceilingScenario.maxSimultaneousDownloads) ∧
    ((fillRequestGroupFromReserver quietCollaborators fullScenario).man.requestGroups
        = (removeStoppedGroup quietCollaborators fullScenario).man.requestGroups ∧
      (fillRequestGroupFromReserver quietCollaborators fullScenario).man.reservedGroups
        = (removeStoppedGroup quietCollaborators fullScenario).man.reservedGroups) :=
  ⟨(fill_respects_ceiling quietCollaborators ceilingScenario (by decide)).1
      (by decide) (by decide) (by decide),
   (fill_respects_ceiling quietCollaborators fullScenario (by decide)).2
      (by decide) (by decide)⟩

/-- Claim C5: when the sweep returns, the reserved queue after
`fillRequestGroupFromReserver` is the groups deferred during the scan (the
popped groups whose dependency is unresolved) in their original relative
order, followed by the never-scanned entries unchanged; the scan pops the
first `min(num, len(reserved))` entries, `num` being the slot count. -/
theorem fill_restores_deferred_in_order (c : Collaborators) (m : RequestGroupMan)
    (hret : (removeStoppedGroup c m).escaped = false) :
    (fillRequestGroupFromReserver c m).man.reservedGroups
      = ((removeStoppedGroup c m).man.reservedGroups.take
            (min (slots (removeStoppedGroup c m).man).toNat
                 (removeStoppedGroup c m).man.reservedGroups.length)).filter
          (fun g => !g.dependencyResolved)
        ++ (removeStoppedGroup c m).man.reservedGroups.drop
            (min (slots (removeStoppedGroup c m).man).toNat
                 (removeStoppedGroup c m).man.reservedGroups.length) :=
  fill_reservedGroups c m hret

/-- Claim C5 at a concrete state: ceiling 4, reserved `D1`, `T2`, `D3`, `T4`,
`T5` with `D1` and `D3` unresolved: the scan pops four entries and leaves
`D1`, `D3`, `T5`. -/
theorem fill_restores_deferred_in_order_witness :
    (removeStoppedGroup quietCollaborators deferralScenario).escaped = false ∧
    (fillRequestGroupFromReserver quietCollaborators deferralScenario).man.reservedGroups
      = [{ sampleGroup 1 with dependencyResolved := false },
         { sampleGroup 3 with dependencyResolved := false }, sampleGroup 5] :=
  ⟨by decide,
   (fill_restores_deferred_in_order quietCollaborators deferralScenario (by decide)).trans
     (by decide)⟩

/-! ## Retirement: `removeStoppedGroup` -/

/-- Claim C3: when `removeStoppedGroup` returns, the new `_requestGroups` is
the sub-list of the old one with `getNumCommand() > 0`, in original order; the
new `_spentGroups` is the old one followed by the other (stopped) groups, each
once and in original order; no stopped group remains active and every group
appended to the spent list is stopped. -/
theorem removeStoppedGroup_partitions_active (c : Collaborators) (m : RequestGroupMan)
    (hret : (removeStoppedGroup c m).escaped = false) :
    (removeStoppedGroup c m).man.requestGroups
      = m.requestGroups.filter (fun g => decide (g.numCommand > 0)) ∧
    (removeStoppedGroup c m).man.spentGroups
      = m.spentGroups ++ m.requestGroups.filter (fun g => !decide (g.numCommand > 0)) ∧
    (∀ g ∈ (removeStoppedGroup c m).man.requestGroups, g.numCommand > 0) ∧
    (∀ g ∈ (removeStoppedGroup c m).man.spentGroups.drop m.spentGroups.length,
      g.numCommand = 0) := by
  obtain ⟨h1, h2, _⟩ := removeStoppedGroup_ok c m hret
  have h1a : (removeStoppedGroup c m).man.requestGroups
      = m.requestGroups.filter (fun g => decide (g.numCommand > 0)) := h1
  have h2a : (removeStoppedGroup c m).man.spentGroups
      = m.spentGroups ++ m.requestGroups.filter (fun g => !decide (g.numCommand > 0)) := h2
  refine ⟨h1a, h2a, ?_, ?_⟩
  · intro g hg
    rw [h1a] at hg
    simpa using (List.mem_filter.mp hg).2
  · intro g hg
    rw [h2a, List.drop_left] at hg
    simpa using (List.mem_filter.mp hg).2

/-- Claim C3 at a concrete state with one running and three stopped groups:
the sweep returns and splits the active list as stated. -/
theorem removeStoppedGroup_partitions_active_witness :
    (removeStoppedGroup quietCollaborators sweepScenario).escaped = false ∧
    (removeStoppedGroup quietCollaborators sweepScenario).man.requestGroups
      = [{ sampleGroup 1 with numCommand := 2 }] ∧
    (removeStoppedGroup quietCollaborators sweepScenario).man.spentGroups
      = [sampleGroup 8, sampleGroup 2,
         { sampleGroup 3 with downloadFinished := true, allDownloadFinished := true },
         { sampleGroup 4 with downloadFinished := true }] :=
  ⟨by decide,
   (removeStoppedGroup_partitions_active quietCollaborators sweepScenario (by decide)).1.trans
     (by decide),
   (removeStoppedGroup_partitions_active quietCollaborators sweepScenario (by decide)).2.1.trans
     (by decide)⟩

/-- Claim C4, evaluated on the code: with stopped groups `A` (finished, not
all-finished) before `B` and `save()` throwing for `A`, the exception leaves
`removeStoppedGroup` (the `downloadFinished()` branch has no `try`): `A` is
neither released nor appended to `_spentGroups`, nothing is called for `B`,
and `_requestGroups` is not replaced.  When `A` is unfinished instead, the
sweep catches the exception and retires both. -/
theorem removeStoppedGroup_finished_save_failure_escapes :
    removeStoppedGroup failingSaveCollaborators resilienceScenario
      = { man := resilienceScenario
          trace := [Event.closeFile { sampleGroup 1 with downloadFinished := true },
                    Event.notice "",
                    Event.save { sampleGroup 1 with downloadFinished := true }]
          escaped := true } ∧
    removeStoppedGroup failingSaveCollaborators
        { resilienceScenario with requestGroups := [sampleGroup 1, sampleGroup 2] }
      = { man := { resilienceScenario with
                     requestGroups := [], spentGroups := [sampleGroup 1, sampleGroup 2] }
          trace := [Event.closeFile (sampleGroup 1), Event.save (sampleGroup 1),
                    Event.error (sampleGroup 1),
                    Event.releaseRuntimeResource (sampleGroup 1),
                    Event.closeFile (sampleGroup 2), Event.save (sampleGroup 2),
                    Event.releaseRuntimeResource (sampleGroup 2),
                    Event.debug 2]
          escaped := false } := by
  decide

theorem downloadFinishedLoop_iff (l : List RequestGroup) :
    downloadFinishedLoop l = true ↔ ∀ g ∈ l, g.numCommand = 0 ∧ g.downloadFinished = true := by
  induction l with
  | nil => simp [downloadFinishedLoop]
  | cons g rest ih =>
    simp only [downloadFinishedLoop, List.mem_cons, forall_eq_or_imp]
    by_cases hn : g.numCommand > 0
    · have : g.numCommand ≠ 0 := by omega
      simp [hn, this]
    · have h0 : g.numCommand = 0 := by omega
      cases hf : g.downloadFinished with
      | false => simp [h0]
      | true => simp [h0, ih]

/-- Claim C7: `downloadFinished()` is true exactly when `_reservedGroups` is
empty and every group in `_requestGroups` has zero outstanding commands and
reports finished; it is true when both containers are empty and false
whenever `_reservedGroups` is non-empty. -/
theorem downloadFinished_iff (m : RequestGroupMan) :
    (downloadFinished m = true ↔
      m.reservedGroups = [] ∧
        ∀ g ∈ m.requestGroups, g.numCommand = 0 ∧ g.downloadFinished = true) ∧
    downloadFinished { m with requestGroups := [], reservedGroups := [] } = true ∧
    (∀ (r : RequestGroup) (rest : List RequestGroup),
      downloadFinished { m with reservedGroups := r :: rest } = false) := by
  refine ⟨?_, ?_, ?_⟩
  · unfold downloadFinished
    cases hr : m.reservedGroups with
    | nil => simp [downloadFinishedLoop_iff]
    | cons r rest => simp
  · simp [downloadFinished, downloadFinishedLoop]
  · intro r rest
    simp [downloadFinished]

theorem sameFileLoop_iff (t : RequestGroup) (l : List RequestGroup) :
    sameFileLoop t l = true ↔ ∃ g ∈ l, g.addr ≠ t.addr ∧ g.filePath = t.filePath := by
  induction l with
  | nil => simp [sameFileLoop]
  | cons g rest ih =>
    simp only [sameFileLoop, List.mem_cons, exists_eq_or_imp]
    by_cases h : g.addr ≠ t.addr ∧ g.filePath = t.filePath
    · simp [h.1, h.2]
    · have hc : (g.addr != t.addr && g.filePath == t.filePath) = false := by
        by_cases ha : g.addr = t.addr
        · simp [ha]
        · have hp : g.filePath ≠ t.filePath := fun hp => h ⟨ha, hp⟩
          simp [hp]
      simp [hc, h, ih]

/-- Claim C8: `isSameFileBeingDownloaded(t)` is true exactly when `t` has the
pre-local-file check enabled and some member of `_requestGroups` that is a
different object (by address) has the same file path; when `t` itself is the
only active group the answer is false. -/
theorem isSameFileBeingDownloaded_iff (m : RequestGroupMan) (t : RequestGroup) :
    (isSameFileBeingDownloaded m t = true ↔
      t.preLocalFileCheckEnabled = true ∧
        ∃ g ∈ m.requestGroups, g.addr ≠ t.addr ∧ g.filePath = t.filePath) ∧
    isSameFileBeingDownloaded { m with requestGroups := [t] } t = false := by
  constructor
  · unfold isSameFileBeingDownloaded
    cases hp : t.preLocalFileCheckEnabled with
    | false => simp
    | true => simp [sameFileLoop_iff]
  · unfold isSameFileBeingDownloaded
    cases hp : t.preLocalFileCheckEnabled with
    | false => simp
    | true => simp [sameFileLoop]

theorem showLoop_eq (other : String) (l : List RequestGroup) :
    ∀ o : String, showLoop other l o
      = o ++ writeLines
          (l.map (fun g => formatDownloadResult (if g.downloadFinished then "OK" else other) g)) := by
  induction l with
  | nil => intro o; simp [showLoop, writeLines]
  | cons g rest ih =>
    intro o
    simp only [showLoop, List.map_cons, writeLines, ih, String.append_assoc]

theorem writeLines_append (a b : List String) :
    writeLines (a ++ b) = writeLines a ++ writeLines b := by
  induction a with
  | nil => simp [writeLines]
  | cons r rest ih =>
    show writeLines (r :: (rest ++ b)) = writeLines (r :: rest) ++ writeLines b
    simp only [writeLines, ih, String.append_assoc]

/-- Claim C9: after the header, `showDownloadResults` writes one line per
spent group in spent order, tagged `OK` when finished and `ERR` otherwise,
then one line per active group in active order, tagged `OK` when finished and
`INPR` otherwise: `len(spent) + len(active)` rows.  With spent `A` (finished),
`B` (not finished) and active `C` (finished) the rows are those of `A` with
`OK`, `B` with `ERR` and `C` with `OK`, in that order. -/
theorem showDownloadResults_rows (m : RequestGroupMan) :
    showDownloadResults m = resultsHeader ++ writeLines (reportRows m) ∧
    (reportRows m).length = m.spentGroups.length + m.requestGroups.length ∧
    reportRows reportScenario
      = [formatDownloadResult "OK" { sampleGroup 1 with downloadFinished := true, filePath := "a.iso" },
         formatDownloadResult "ERR" { sampleGroup 2 with uris := ["http://h/b.iso"] },
         formatDownloadResult "OK" { sampleGroup 3 with downloadFinished := true, filePath := "c.iso" }] ∧
    showDownloadResults reportScenario
      = resultsHeader ++ "  1|  OK|a.iso\n  2| ERR|http://h/b.iso\n  3|  OK|c.iso\n" := by
  have hshow : ∀ s : RequestGroupMan,
      showDownloadResults s = resultsHeader ++ writeLines (reportRows s) := by
    intro s
    simp only [showDownloadResults, showLoop_eq, reportRows, writeLines_append,
      String.append_assoc]
  refine ⟨hshow m, ?_, ?_, ?_⟩
  · simp [reportRows]
  · decide
  · rw [hshow reportScenario]
    have hrows : writeLines (reportRows reportScenario)
        = "  1|  OK|a.iso\n  2| ERR|http://h/b.iso\n  3|  OK|c.iso\n" := by decide
    rw [hrows]

/-- Claim C10, evaluated on the code: for an unfinished group with the two
locators `http://a/f` and `http://b/f`, `formatDownloadResult` writes the
third field `http://a/f (1more)`, without a blank between the number and
`more`, where the specification has `http://a/f (1 more)`. -/
theorem formatDownloadResult_more_suffix_lacks_blank :
    formatDownloadResult "INPR" twoUriGroup = "  7|INPR|http://a/f (1more)" ∧
    rowColumns "INPR" twoUriGroup ++ specPathOrUri twoUriGroup = "  7|INPR|http://a/f (1 more)" := by
  decide

theorem formatDownloadResult_eq_spec (status : String) (g : RequestGroup)
    (h : g.downloadFinished = true ∨ g.uris.length ≤ 1) :
    formatDownloadResult status g = rowColumns status g ++ specPathOrUri g := by
  unfold formatDownloadResult specPathOrUri rowColumns
  cases hf : g.downloadFinished with
  | true => simp
  | false =>
    have hlen : g.uris.length ≤ 1 := by
      rcases h with h | h
      · rw [hf] at h; cases h
      · exact h
    cases hu : g.uris with
    | nil =>
      by_cases hp : g.filePath.isEmpty = true <;> simp [hp]
    | cons front rest =>
      have hrest : rest.length = 0 := by
        rw [hu, List.length_cons] at hlen
        omega
      simp [hrest]

/-! ## The report row layout -/

theorem formatDownloadResult_eq_columns (status : String) (g : RequestGroup) :
    formatDownloadResult status g = rowColumns status g ++ pathOrUriField g := by
  unfold formatDownloadResult pathOrUriField rowColumns
  cases hf : g.downloadFinished with
  | true => simp
  | false =>
    cases hu : g.uris with
    | nil => by_cases hp : g.filePath.isEmpty = true <;> simp [hp]
    | cons front rest =>
      by_cases hl : 0 < rest.length <;> simp [hl, String.append_assoc]

/-- Claim C11 as stated fails at its own example: for GID 1, tag `OK` and
path `p` the code writes `"  1|  OK|p"`, the tag padded on the left; the
claimed row with the tag left-aligned is `"  1|OK  |p"`. -/
theorem formatDownloadResult_status_not_left_aligned :
    formatDownloadResult "OK" finishedGroup = "  1|  OK|p" ∧
    rightAligned 3 (toString finishedGroup.gid) ++ "|" ++ leftAligned 4 "OK" ++ "|"
        ++ pathOrUriField finishedGroup = "  1|OK  |p" ∧
    formatDownloadResult "OK" finishedGroup
      ≠ rightAligned 3 (toString finishedGroup.gid) ++ "|" ++ leftAligned 4 "OK" ++ "|"
        ++ pathOrUriField finishedGroup := by
  decide

/-- Claim C11, amended: for every task and every status tag, the row is the
GID right-aligned (blanks on the left) to width 3, then `"|"`, then the
status tag right-aligned (blanks on the left) to width 4, then `"|"`, then
the path-or-URI field; the tags `OK`, `ERR`, `INPR` give the columns
`"  OK"`, `" ERR"`, `"INPR"`, and GID 1 with tag `OK` and path `p` gives
`"  1|  OK|p"`. -/
theorem formatDownloadResult_layout (status : String) (g : RequestGroup) :
    formatDownloadResult status g
      = rightAligned 3 (toString g.gid) ++ "|" ++ rightAligned 4 status ++ "|"
        ++ pathOrUriField g ∧
    rightAligned 4 "OK" = "  OK" ∧ rightAligned 4 "ERR" = " ERR" ∧
    rightAligned 4 "INPR" = "INPR" ∧
    formatDownloadResult "OK" finishedGroup = "  1|  OK|p" := by
  refine ⟨?_, by decide, by decide, by decide, by decide⟩
  rw [formatDownloadResult_eq_columns]
  rfl

/-! ## Read accessors -/

/-- Claim C16 as stated fails for an active list of `2^31` handles: the size
converted to `int32_t` is `INT32_MIN`, so `countRequestGroup()` returns
`-2147483648` instead of `len(active)`, and `getRequestGroup(0)` returns the
null handle although `0 < len(active)`. -/
theorem getRequestGroup_size_wraps :
    overflowScenario.requestGroups.length = 2147483648 ∧
    countRequestGroup overflowScenario = -2147483648 ∧
    getRequestGroup overflowScenario 0 = Lookup.null := by
  have hlen : overflowScenario.requestGroups.length = 2147483648 :=
    List.length_replicate 2147483648 (sampleGroup 1)
  have hcast : toInt32 ((2147483648 : Nat) : Int) = -2147483648 := by decide
  refine ⟨hlen, ?_, ?_⟩
  · unfold countRequestGroup
    rw [hlen]
    exact hcast
  · unfold getRequestGroup
    rw [hlen, hcast]
    exact if_neg (by decide)

/-- Claim C16, amended: for an active list of fewer than `2^31` groups, so
that its size fits the `int32_t` to which the code converts it,
`countRequestGroup()` returns `len(active)`,
`getRequestGroup(i)` returns the `i`-th group when `0 <= i < len(active)`,
and returns the null handle for every `i >= len(active)`, also on an empty
list. -/
theorem getRequestGroup_by_index (m : RequestGroupMan)
    (hsize : m.requestGroups.length < 2147483648) :
    countRequestGroup m = (m.requestGroups.length : Int) ∧
    (∀ (i : Nat) (h : i < m.requestGroups.length),
      getRequestGroup m (i : Int) = Lookup.found (m.requestGroups.get ⟨i, h⟩)) ∧
    (∀ i : Int, (m.requestGroups.length : Int) ≤ i → getRequestGroup m i = Lookup.null) ∧
    (∀ i : Int, 0 ≤ i → getRequestGroup { m with requestGroups := [] } i = Lookup.null) := by
  have hcast : toInt32 (m.requestGroups.length : Int) = (m.requestGroups.length : Int) := by
    apply toInt32_eq_self <;> omega
  refine ⟨?_, ?_, ?_, ?_⟩
  · unfold countRequestGroup
    exact hcast
  · intro i h
    unfold getRequestGroup
    rw [hcast]
    have h1 : (i : Int) < (m.requestGroups.length : Int) := by omega
    have h2 : ¬ ((i : Int) < 0) := by omega
    simp only [h1, h2, if_true, if_false, Int.toNat_ofNat]
    rw [List.getElem?_eq_getElem h]
    rfl
  · intro i hi
    unfold getRequestGroup
    rw [hcast]
    have h1 : ¬ (i < (m.requestGroups.length : Int)) := by omega
    simp only [h1, if_false]
  · intro i hi
    unfold getRequestGroup
    have h0 : toInt32 (([] : List RequestGroup).length : Int) = 0 := by decide
    have h1 : ¬ (i < 0) := by omega
    simp only [h0, h1, if_false]

/-- The amended claim C16 at a concrete active list of five groups: the count is 5, index
2 yields the third group, index 5 yields the null handle. -/
theorem getRequestGroup_by_index_witness :
    countRequestGroup initialScenario = 5 ∧
    getRequestGroup initialScenario 2 = Lookup.found (sampleGroup 3) ∧
    getRequestGroup initialScenario 5 = Lookup.null :=
  ⟨(getRequestGroup_by_index initialScenario (by decide)).1.trans (by decide),
   ((getRequestGroup_by_index initialScenario (by decide)).2.1 2 (by decide)).trans (by decide),
   (getRequestGroup_by_index initialScenario (by decide)).2.2.1 5 (by decide)⟩

/-! ## The initial command pass: `getInitialCommands` -/

theorem initialLoop_eq (c : Collaborators) (l : List RequestGroup) :
    ∀ st : InitialState,
      (initialLoop c l st).commands = st.commands ++ commandsOf c (l.filter (isStarted c)) ∧
      (initialLoop c l st).kept = st.kept ++ l.filter (isStarted c) ∧
      (initialLoop c l st).reserved
        = (l.filter (fun g => !g.dependencyResolved)).reverse ++ st.reserved := by
  induction l with
  | nil => intro st; simp [initialLoop, commandsOf]
  | cons g rest ih =>
    intro st
    unfold initialLoop
    cases hd : g.dependencyResolved with
    | false =>
      obtain ⟨h1, h2, h3⟩ := ih { st with reserved := g :: st.reserved }
      simp [hd, isStarted, h1, h2, h3]
    | true =>
      cases hc : c.createInitialCommand g with
      | none =>
        obtain ⟨h1, h2, h3⟩ :=
          ih { st with trace := st.trace ++ [Event.createInitialCommand g, Event.error g] }
        simp [hd, hc, isStarted, h1, h2, h3]
      | some cmds =>
        obtain ⟨h1, h2, h3⟩ := ih
          { st with
            commands := st.commands ++ cmds
            kept := st.kept ++ [g]
            trace := st.trace ++ [Event.createInitialCommand g] }
        simp [hd, hc, isStarted, h1, h2, h3, commandsOf]

theorem getInitialCommands_eq (c : Collaborators) (m : RequestGroupMan) :
    (getInitialCommands c m).1.escaped = false ∧
    (getInitialCommands c m).2 = commandsOf c (m.requestGroups.filter (isStarted c)) ∧
    (getInitialCommands c m).1.man.requestGroups = m.requestGroups.filter (isStarted c) ∧
    (getInitialCommands c m).1.man.reservedGroups
      = (m.requestGroups.filter (fun g => !g.dependencyResolved)).reverse ++ m.reservedGroups ∧
    (getInitialCommands c m).1.man.spentGroups = m.spentGroups ∧
    (getInitialCommands c m).1.man.maxSimultaneousDownloads = m.maxSimultaneousDownloads := by
  obtain ⟨h1, h2, h3⟩ := initialLoop_eq c m.requestGroups
    { commands := [], kept := [], reserved := m.reservedGroups, trace := [] }
  refine ⟨rfl, ?_, ?_, ?_, rfl, rfl⟩
  · simpa [getInitialCommands] using h1
  · simpa [getInitialCommands] using h2
  · simpa [getInitialCommands] using h3

/-- Claim C18, evaluated on the code: with the active list `D1`, `D2`, both
dependency-unresolved, and `R9` reserved, `getInitialCommands` pushes each
group to the front of `_reservedGroups` as it meets it and leaves
`_reservedGroups = [D2, D1, R9]`: the deferred groups stand in reversed
order, where the claim has `[D1, D2, R9]`. -/
theorem getInitialCommands_reverses_deferred :
    (getInitialCommands quietCollaborators
        { initialScenario with
          requestGroups := [{ sampleGroup 1 with dependencyResolved := false },
                            { sampleGroup 2 with dependencyResolved := false }] }).1.man.reservedGroups
      = [{ sampleGroup 2 with dependencyResolved := false },
         { sampleGroup 1 with dependencyResolved := false }, sampleGroup 9] ∧
    (getInitialCommands quietCollaborators
        { initialScenario with
          requestGroups := [{ sampleGroup 1 with dependencyResolved := false },
                            { sampleGroup 2 with dependencyResolved := false }] }).1.man.requestGroups
      = [] := by
  decide

/-! ## The persistence sweep: `save` -/

/-- Claim C14, evaluated on the code: with the active list `A` (all-finished),
`B` and `removeFile()` throwing for `A`, the exception leaves `save()`: the
only call made is `removeFile()` on `A`, and `B` is never persisted.  The
containers are unchanged. -/
theorem save_removeFile_failure_escapes :
    save failingRemoveCollaborators saveScenario
      = { man := saveScenario
          trace := [Event.removeFile { sampleGroup 1 with allDownloadFinished := true }]
          escaped := true } ∧
    save failingSaveCollaborators
        { saveScenario with requestGroups := [sampleGroup 1, sampleGroup 2] }
      = { man := { saveScenario with requestGroups := [sampleGroup 1, sampleGroup 2] }
          trace := [Event.save (sampleGroup 1), Event.error (sampleGroup 1),
                    Event.save (sampleGroup 2)]
          escaped := false } := by
  decide

theorem saveLoop_ok (c : Collaborators) (l : List RequestGroup)
    (h : ∀ g ∈ l, g.allDownloadFinished = true → c.removeFileThrows g = false) :
    ∀ trace : List Event, ∃ trace1 : List Event,
      saveLoop c l trace = Except.ok trace1 ∧
      trace1.filter isPersistenceCall = trace.filter isPersistenceCall ++ l.map saveChoice := by
  induction l with
  | nil => intro trace; exact ⟨trace, rfl, by simp⟩
  | cons g rest ih =>
    intro trace
    have hrest : ∀ x ∈ rest, x.allDownloadFinished = true → c.removeFileThrows x = false :=
      fun x hx => h x (List.mem_cons_of_mem g hx)
    unfold saveLoop
    cases ha : g.allDownloadFinished with
    | true =>
      have hno := h g (List.mem_cons_self g rest) ha
      obtain ⟨t1, e1, e2⟩ := ih hrest (trace ++ [Event.removeFile g])
      refine ⟨t1, by simp [hno, e1], ?_⟩
      rw [e2]
      simp [isPersistenceCall, saveChoice, ha]
    | false =>
      by_cases hs : c.saveThrows g = true
      · obtain ⟨t1, e1, e2⟩ := ih hrest (trace ++ [Event.save g] ++ [Event.error g])
        refine ⟨t1, by simpa [hs] using e1, ?_⟩
        rw [e2]
        simp [isPersistenceCall, saveChoice, ha]
      · obtain ⟨t1, e1, e2⟩ := ih hrest (trace ++ [Event.save g])
        refine ⟨t1, by simp [hs, e1], ?_⟩
        rw [e2]
        simp [isPersistenceCall, saveChoice, ha]

theorem save_returns (c : Collaborators) (m : RequestGroupMan)
    (h : ∀ g ∈ m.requestGroups, g.allDownloadFinished = true → c.removeFileThrows g = false) :
    (save c m).escaped = false ∧ (save c m).man = m ∧
    (save c m).trace.filter isPersistenceCall = m.requestGroups.map saveChoice := by
  obtain ⟨t1, e1, e2⟩ := saveLoop_ok c m.requestGroups h []
  simp [save, e1, e2]

/-! ## Follow-ups, post-processing and submitted commands -/

theorem submittedCommands_append (a b : List Event) :
    submittedCommands (a ++ b) = submittedCommands a ++ submittedCommands b := by
  induction a with
  | nil => simp [submittedCommands]
  | cons e rest ih =>
    cases e <;> simp [submittedCommands, ih]

theorem submittedCommands_debug (p : Prop) [Decidable p] (t : List Event) (n : Int) :
    submittedCommands (if p then t ++ [Event.debug n] else t) = submittedCommands t := by
  split <;> simp [submittedCommands_append, submittedCommands]

theorem postProcess_chain (c : Collaborators) (g : RequestGroup) (st : SweepState) :
    (postProcess c g st).reserved = c.postDownloadProcessing g ++ st.reserved ∧
    (postProcess c g st).trace.filter isPostProcessingCall
      = st.trace.filter isPostProcessingCall ++ [Event.postDownloadProcessing g] ∧
    submittedCommands (postProcess c g st).trace = submittedCommands st.trace := by
  simp only [postProcess]
  by_cases h : (c.postDownloadProcessing g).length > 0
  · simp [h, isPostProcessingCall, copyFrontInserter_eq, submittedCommands_append,
      submittedCommands]
  · have hnil : c.postDownloadProcessing g = [] := by
      cases hp : c.postDownloadProcessing g with
      | nil => rfl
      | cons a l => rw [hp] at h; simp at h
    simp [hnil, isPostProcessingCall, submittedCommands_append, submittedCommands]

theorem sweepStep_ok_chain (c : Collaborators) (g : RequestGroup) (st st1 : SweepState)
    (h : sweepStep c g st = Except.ok st1) :
    st1.reserved = followUpBlocks c ([g].filter isStoppedFinished) ++ st.reserved ∧
    st1.trace.filter isPostProcessingCall
      = st.trace.filter isPostProcessingCall
        ++ ([g].filter isStoppedFinished).map Event.postDownloadProcessing ∧
    submittedCommands st1.trace = submittedCommands st.trace := by
  unfold sweepStep at h
  by_cases hn : g.numCommand > 0
  · simp only [hn, if_true] at h
    cases h
    simp [isStoppedFinished, hn, followUpBlocks]
  · simp only [hn, if_false] at h
    cases hf : g.downloadFinished with
    | false =>
      simp only [hf] at h
      cases h
      by_cases hs : c.saveThrows g = true <;>
        simp [isStoppedFinished, hn, hs, hf, retireTail, isPostProcessingCall, followUpBlocks,
          submittedCommands_append, submittedCommands]
    | true =>
      simp only [hf, if_true] at h
      cases ha : g.allDownloadFinished with
      | false =>
        simp only [ha] at h
        by_cases hs : c.saveThrows g = true
        · simp [hs] at h
        · simp only [hs] at h
          cases h
          obtain ⟨p1, p2, p3⟩ := postProcess_chain c g
            { st with trace := st.trace ++ [Event.closeFile g] ++ [Event.notice g.filePath]
                        ++ [Event.save g] }
          simp [isStoppedFinished, hn, hf, retireTail, isPostProcessingCall, followUpBlocks,
            submittedCommands_append, submittedCommands] at p1 p2 p3 ⊢
          exact ⟨p1, p2, p3⟩
      | true =>
        simp only [ha, if_true] at h
        by_cases hs : c.removeFileThrows g = true
        · simp [hs] at h
        · simp only [hs] at h
          cases h
          obtain ⟨p1, p2, p3⟩ := postProcess_chain c g
            { st with trace := st.trace ++ [Event.closeFile g] ++ [Event.notice g.filePath]
                        ++ [Event.removeFile g] }
          simp [isStoppedFinished, hn, hf, retireTail, isPostProcessingCall, followUpBlocks,
            submittedCommands_append, submittedCommands] at p1 p2 p3 ⊢
          exact ⟨p1, p2, p3⟩

theorem followUpBlocks_append (c : Collaborators) (a b : List RequestGroup) :
    followUpBlocks c (a ++ b) = followUpBlocks c b ++ followUpBlocks c a := by
  induction a with
  | nil => simp [followUpBlocks]
  | cons g rest ih =>
    show followUpBlocks c (g :: (rest ++ b)) = _
    simp [followUpBlocks, ih]

theorem sweepLoop_ok_chain (c : Collaborators) (l : List RequestGroup) :
    ∀ (st st1 : SweepState), sweepLoop c l st = Except.ok st1 →
      st1.reserved = followUpBlocks c (l.filter isStoppedFinished) ++ st.reserved ∧
      st1.trace.filter isPostProcessingCall
        = st.trace.filter isPostProcessingCall
          ++ (l.filter isStoppedFinished).map Event.postDownloadProcessing ∧
      submittedCommands st1.trace = submittedCommands st.trace := by
  induction l with
  | nil =>
    intro st st1 h
    simp only [sweepLoop] at h
    cases h
    simp [followUpBlocks]
  | cons g rest ih =>
    intro st st1 h
    simp only [sweepLoop] at h
    cases hstep : sweepStep c g st with
    | error e => simp [hstep] at h
    | ok st2 =>
      simp only [hstep] at h
      obtain ⟨a1, a2, a3⟩ := sweepStep_ok_chain c g st st2 hstep
      obtain ⟨b1, b2, b3⟩ := ih st2 st1 h
      have hsplit : (g :: rest).filter isStoppedFinished
          = [g].filter isStoppedFinished ++ rest.filter isStoppedFinished := by
        rw [← List.filter_append]; rfl
      refine ⟨?_, ?_, ?_⟩
      · rw [b1, a1, hsplit, followUpBlocks_append, List.append_assoc]
      · rw [b2, a2, hsplit, List.map_append, List.append_assoc]
      · rw [b3, a3]

theorem removeStoppedGroup_ok_chain (c : Collaborators) (m : RequestGroupMan)
    (h : (removeStoppedGroup c m).escaped = false) :
    (removeStoppedGroup c m).man.reservedGroups
      = followUpBlocks c (m.requestGroups.filter isStoppedFinished) ++ m.reservedGroups ∧
    (removeStoppedGroup c m).trace.filter isPostProcessingCall
      = (m.requestGroups.filter isStoppedFinished).map Event.postDownloadProcessing ∧
    submittedCommands (removeStoppedGroup c m).trace = [] := by
  cases hst : sweepLoop c m.requestGroups (sweepInit m) with
  | ok st =>
    rw [removeStoppedGroup_of_ok c m st hst]
    obtain ⟨a1, a2, a3⟩ := sweepLoop_ok_chain c m.requestGroups _ st hst
    refine ⟨by simpa [sweepInit] using a1, ?_, ?_⟩
    · by_cases hc : st.count > 0
      · simpa [hc, isPostProcessingCall, sweepInit] using a2
      · simpa [hc, sweepInit] using a2
    · by_cases hc : st.count > 0
      · simpa [hc, submittedCommands_append, submittedCommands, sweepInit] using a3
      · simpa [hc, sweepInit, submittedCommands] using a3
  | error st =>
    rw [removeStoppedGroup_of_error c m st hst] at h
    cases h

theorem fillLoop_submitted (c : Collaborators) (reserved : List RequestGroup) :
    ∀ (num count : Int) (temp active : List RequestGroup) (trace : List Event),
      submittedCommands (fillLoop c reserved num count temp active trace).trace
        = submittedCommands trace
          ++ ((reserved.take (scanCount num reserved)).filter
                (fun g => g.dependencyResolved)).filterMap c.createInitialCommand := by
  induction reserved with
  | nil => intro num count temp active trace; simp [fillLoop]
  | cons g rest ih =>
    intro num count temp active trace
    unfold fillLoop
    by_cases hnum : num > 0
    · rw [scanCount_cons num g rest hnum]
      cases hd : g.dependencyResolved with
      | false => simp [hnum, hd, ih]
      | true =>
        cases hc : c.createInitialCommand g with
        | none =>
          simp [hnum, hd, hc, ih, submittedCommands_append, submittedCommands]
        | some cmds =>
          simp [hnum, hd, hc, ih, submittedCommands_append, submittedCommands]
    · rw [scanCount_of_nonpos num (g :: rest) hnum]
      simp [hnum]

theorem fill_submitted (c : Collaborators) (m : RequestGroupMan)
    (h : (removeStoppedGroup c m).escaped = false) :
    submittedCommands (fillRequestGroupFromReserver c m).trace
      = (((removeStoppedGroup c m).man.reservedGroups.take
              (scanCount (slots (removeStoppedGroup c m).man)
                (removeStoppedGroup c m).man.reservedGroups)).filter
            (fun g => g.dependencyResolved)).filterMap c.createInitialCommand := by
  have hs := (removeStoppedGroup_ok_chain c m h).2.2
  have hl := fillLoop_submitted c (removeStoppedGroup c m).man.reservedGroups
    (slots (removeStoppedGroup c m).man) 0 [] (removeStoppedGroup c m).man.requestGroups
    (removeStoppedGroup c m).trace
  rw [hs] at hl
  unfold fillRequestGroupFromReserver
  simp only [h, Bool.false_eq_true, if_false]
  rw [submittedCommands_debug]
  simpa [slots] using hl

theorem fill_spentGroups (c : Collaborators) (m : RequestGroupMan) :
    (fillRequestGroupFromReserver c m).man.spentGroups
      = (removeStoppedGroup c m).man.spentGroups := by
  unfold fillRequestGroupFromReserver
  cases h : (removeStoppedGroup c m).escaped <;> simp [h]

/-! ## Failed admission -/

/-- What the loop does with a failed admission, in every state in which the
sweep returns: a reserved group with a resolved dependency that the scan pops
and whose command creation throws is afterwards in `_requestGroups`; it is
not put back into `_reservedGroups`, the loop adds nothing to `_spentGroups`,
and the command lists submitted to the engine are exactly those of the popped
resolved groups whose creation succeeded. -/
theorem fill_failed_admission_stays_active (c : Collaborators) (m : RequestGroupMan)
    (g : RequestGroup)
    (hret : (removeStoppedGroup c m).escaped = false)
    (hpop : g ∈ (removeStoppedGroup c m).man.reservedGroups.take
              (scanCount (slots (removeStoppedGroup c m).man)
                (removeStoppedGroup c m).man.reservedGroups))
    (hdep : g.dependencyResolved = true)
    (hfail : c.createInitialCommand g = none) :
    g ∈ (fillRequestGroupFromReserver c m).man.requestGroups ∧
    (g ∉ (removeStoppedGroup c m).man.reservedGroups.drop
              (scanCount (slots (removeStoppedGroup c m).man)
                (removeStoppedGroup c m).man.reservedGroups) →
      g ∉ (fillRequestGroupFromReserver c m).man.reservedGroups) ∧
    (fillRequestGroupFromReserver c m).man.spentGroups
      = (removeStoppedGroup c m).man.spentGroups ∧
    submittedCommands (fillRequestGroupFromReserver c m).trace
      = (((removeStoppedGroup c m).man.reservedGroups.take
              (scanCount (slots (removeStoppedGroup c m).man)
                (removeStoppedGroup c m).man.reservedGroups)).filter
            (fun g => g.dependencyResolved)).filterMap c.createInitialCommand ∧
    g ∉ (((removeStoppedGroup c m).man.reservedGroups.take
              (scanCount (slots (removeStoppedGroup c m).man)
                (removeStoppedGroup c m).man.reservedGroups)).filter
            (fun g => g.dependencyResolved && (c.createInitialCommand g).isSome)) := by
  refine ⟨?_, ?_, fill_spentGroups c m, fill_submitted c m hret, ?_⟩
  · rw [fill_requestGroups c m hret]
    exact List.mem_append_right _ (List.mem_filter.mpr ⟨hpop, hdep⟩)
  · intro hnot
    rw [fill_reservedGroups c m hret]
    intro hmem
    rcases List.mem_append.mp hmem with h | h
    · have := (List.mem_filter.mp h).2
      simp [hdep] at this
    · exact hnot h
  · intro hmem
    have := (List.mem_filter.mp hmem).2
    simp [hfail] at this

/-- Claim C13, evaluated on the code: with reserved `T1`, `T2` and command
creation throwing for `T1`, `fillRequestGroupFromReserver` returns with `T1`
still in `_requestGroups`, where the claim has it in no container: line 153
appends the group before the call that throws and the `catch` only logs.  No
command of `T1` reaches the engine, and the count of added groups that the
loop logs is 1 although two groups were appended.  The sibling path
`getInitialCommands` erases `T1` from `_requestGroups` in the same
situation. -/
theorem fill_keeps_failed_admission_active :
    (fillRequestGroupFromReserver failingCommandCollaborators failedAdmissionScenario).escaped
      = false ∧
    failingCommandCollaborators.createInitialCommand (sampleGroup 1) = none ∧
    sampleGroup 1 ∈
      (fillRequestGroupFromReserver failingCommandCollaborators
        failedAdmissionScenario).man.requestGroups ∧
    (fillRequestGroupFromReserver failingCommandCollaborators
        failedAdmissionScenario).man.requestGroups = [sampleGroup 1, sampleGroup 2] ∧
    (fillRequestGroupFromReserver failingCommandCollaborators failedAdmissionScenario).trace
      = [Event.createInitialCommand (sampleGroup 1), Event.error (sampleGroup 1),
         Event.createInitialCommand (sampleGroup 2), Event.addCommand [2, 102],
         Event.debug 1] ∧
    (getInitialCommands failingCommandCollaborators
        { failedAdmissionScenario with
          requestGroups := [sampleGroup 1, sampleGroup 2]
          reservedGroups := [] }).1.man.requestGroups = [sampleGroup 2] := by
  decide

/-! ## Follow-up chaining and post-processing -/

/-- Claim C15: when the iteration for a stopped finished group completes, its
follow-ups `F1, ..., Fn` stand as a block, in their own order, at the front of
`_reservedGroups`, before everything that was there; and when the sweep
returns, `_reservedGroups` is `Bk ++ ... ++ B1 ++ old reserved`, the `Bi`
being the follow-up blocks of the stopped finished groups `S1, ..., Sk` in
active order. -/
theorem removeStoppedGroup_chains_follow_ups (c : Collaborators) (m : RequestGroupMan) :
    (∀ (g : RequestGroup) (st st1 : SweepState),
      sweepStep c g st = Except.ok st1 → isStoppedFinished g = true →
        st1.reserved = c.postDownloadProcessing g ++ st.reserved) ∧
    ((removeStoppedGroup c m).escaped = false →
      (removeStoppedGroup c m).man.reservedGroups
        = followUpBlocks c (m.requestGroups.filter isStoppedFinished) ++ m.reservedGroups) := by
  constructor
  · intro g st st1 hstep hg
    have h := (sweepStep_ok_chain c g st st1 hstep).1
    simpa [hg, followUpBlocks] using h
  · intro hret
    exact (removeStoppedGroup_ok_chain c m hret).1

/-- Claim C15 at a concrete state: the stopped finished groups at addresses 2
and 3 have the follow-ups `21, 22` and `31, 32`; afterwards the reserved
queue is `31, 32, 21, 22` followed by the old entry `9`. -/
theorem removeStoppedGroup_chains_follow_ups_witness :
    (removeStoppedGroup followUpCollaborators chainingScenario).man.reservedGroups
      = [sampleGroup 31, sampleGroup 32, sampleGroup 21, sampleGroup 22, sampleGroup 9] :=
  ((removeStoppedGroup_chains_follow_ups followUpCollaborators chainingScenario).2
      (by decide)).trans (by decide)

/-- Claim C17 as stated fails: a stopped group that is not finished is
retired (released and appended to `_spentGroups`) without any call of
`postDownloadProcessing()`, and `_reservedGroups` stays as it was although
post-processing would have returned two follow-ups. -/
theorem removeStoppedGroup_skips_post_processing_of_unfinished :
    (removeStoppedGroup followUpCollaborators unfinishedScenario).escaped = false ∧
    (removeStoppedGroup followUpCollaborators unfinishedScenario).man.spentGroups
      = [sampleGroup 2] ∧
    followUpCollaborators.postDownloadProcessing (sampleGroup 2)
      = [sampleGroup 21, sampleGroup 22] ∧
    (removeStoppedGroup followUpCollaborators unfinishedScenario).trace.filter
      isPostProcessingCall = [] ∧
    (removeStoppedGroup followUpCollaborators unfinishedScenario).man.reservedGroups
      = [sampleGroup 9] := by
  decide

/-- Claim C17, amended: when the sweep returns, `postDownloadProcessing()` is
called exactly once for every stopped group that is finished, in active
order, and for no other group; the follow-ups it returns are inserted at the
front of `_reservedGroups`. -/
theorem removeStoppedGroup_post_processes_finished (c : Collaborators) (m : RequestGroupMan)
    (hret : (removeStoppedGroup c m).escaped = false) :
    (removeStoppedGroup c m).trace.filter isPostProcessingCall
      = (m.requestGroups.filter
          (fun g => !decide (g.numCommand > 0) && g.downloadFinished)).map
            Event.postDownloadProcessing ∧
    (∀ g ∈ m.requestGroups, g.numCommand = 0 → g.downloadFinished = true →
      ∀ f ∈ c.postDownloadProcessing g,
        f ∈ (removeStoppedGroup c m).man.reservedGroups.take
              ((removeStoppedGroup c m).man.reservedGroups.length - m.reservedGroups.length)) := by
  obtain ⟨h1, h2, _⟩ := removeStoppedGroup_ok_chain c m hret
  refine ⟨h2, ?_⟩
  intro g hg hstop hfin f hf
  rw [h1, List.length_append, Nat.add_sub_cancel, List.take_left]
  have hmem : g ∈ m.requestGroups.filter isStoppedFinished :=
    List.mem_filter.mpr ⟨hg, by simp [isStoppedFinished, hstop, hfin]⟩
  have key : ∀ l : List RequestGroup, g ∈ l → f ∈ followUpBlocks c l := by
    intro l
    induction l with
    | nil => intro h; cases h
    | cons x rest ih =>
      intro h
      simp only [followUpBlocks, List.mem_append]
      rcases List.mem_cons.mp h with rfl | h
      · exact Or.inr hf
      · exact Or.inl (ih h)
  exact key _ hmem

/-- The amended claim C17 at a concrete state: post-processing is called for
the two stopped finished groups only, and the follow-up `21` is among the new
front entries of the reserved queue. -/
theorem removeStoppedGroup_post_processes_finished_witness :
    (removeStoppedGroup followUpCollaborators chainingScenario).trace.filter
        isPostProcessingCall
      = [Event.postDownloadProcessing { sampleGroup 2 with downloadFinished := true },
         Event.postDownloadProcessing
           { sampleGroup 3 with downloadFinished := true, allDownloadFinished := true }] ∧
    sampleGroup 21 ∈
      (removeStoppedGroup followUpCollaborators chainingScenario).man.reservedGroups.take
        ((removeStoppedGroup followUpCollaborators chainingScenario).man.reservedGroups.length
          - chainingScenario.reservedGroups.length) :=
  ⟨(removeStoppedGroup_post_processes_finished followUpCollaborators chainingScenario
      (by decide)).1.trans (by decide),
   (removeStoppedGroup_post_processes_finished followUpCollaborators chainingScenario
      (by decide)).2 { sampleGroup 2 with downloadFinished := true } (by decide) (by decide)
      (by decide) (sampleGroup 21) (by decide)⟩

/-! ## Containers -/

/-- Claim C19, evaluated on the code: with stopped unfinished `B` before
stopped finished `A` and `save()` throwing for `A`, no task occurs twice
before the call; the exception leaves `removeStoppedGroup` (and
`fillRequestGroupFromReserver`) after `B` was appended to `_spentGroups` and
before `_requestGroups` is replaced, so `B` is afterwards both active and
spent.  The old spent list is still an initial segment of the new one. -/
theorem removeStoppedGroup_escape_duplicates_task :
    singleContainer escapeScenario ∧
    (removeStoppedGroup failingSaveCollaborators escapeScenario).escaped = true ∧
    (removeStoppedGroup failingSaveCollaborators escapeScenario).man.requestGroups
      = [sampleGroup 2, { sampleGroup 1 with downloadFinished := true }] ∧
    (removeStoppedGroup failingSaveCollaborators escapeScenario).man.spentGroups
      = [sampleGroup 8, sampleGroup 2] ∧
    ¬ singleContainer (removeStoppedGroup failingSaveCollaborators escapeScenario).man ∧
    (fillRequestGroupFromReserver failingSaveCollaborators escapeScenario).escaped = true ∧
    ¬ singleContainer
        (fillRequestGroupFromReserver failingSaveCollaborators escapeScenario).man := by
  unfold singleContainer
  decide

/-! ## Conservation under admission -/

theorem removeStoppedGroup_of_all_running (c : Collaborators) (m : RequestGroupMan)
    (hrun : ∀ g ∈ m.requestGroups, g.numCommand > 0) :
    (removeStoppedGroup c m).escaped = false ∧
    (removeStoppedGroup c m).man.requestGroups = m.requestGroups ∧
    (removeStoppedGroup c m).man.reservedGroups = m.reservedGroups ∧
    (removeStoppedGroup c m).man.spentGroups = m.spentGroups := by
  have hesc : (removeStoppedGroup c m).escaped = false :=
    (removeStoppedGroup_escaped_iff c m).mpr
      (fun g hg => Or.inl (by simp [isRunning, hrun g hg]))
  obtain ⟨h1, h2, _⟩ := removeStoppedGroup_ok c m hesc
  obtain ⟨h3, _, _⟩ := removeStoppedGroup_ok_chain c m hesc
  have hall : m.requestGroups.filter isRunning = m.requestGroups :=
    List.filter_eq_self.mpr (fun g hg => by simp [isRunning, hrun g hg])
  have hnone : m.requestGroups.filter (fun g => !isRunning g) = [] :=
    List.filter_eq_nil_iff.mpr (fun g hg => by simp [isRunning, hrun g hg])
  have hnone2 : m.requestGroups.filter isStoppedFinished = [] :=
    List.filter_eq_nil_iff.mpr (fun g hg => by simp [isStoppedFinished, hrun g hg])
  refine ⟨hesc, ?_, ?_, ?_⟩
  · rw [h1, hall]
  · rw [h3, hnone2]; simp [followUpBlocks]
  · rw [h2, hnone]; simp

/-- Claim C20 as stated fails at the lower end of `int32_t`: with ceiling
`INT32_MIN + 1`, two running groups and two reserved groups, the sweep retires
nothing and `min(max(maxConcurrent - len(active), 0), len(reserved))` is 0,
yet the slot count wraps to `INT32_MAX` and both reserved groups are taken. -/
theorem fill_takes_entries_when_slot_count_wraps :
    (∀ g ∈ conservationWrapScenario.requestGroups, g.numCommand > 0) ∧
    min (max (conservationWrapScenario.maxSimultaneousDownloads
                - (conservationWrapScenario.requestGroups.length : Int)) 0).toNat
        conservationWrapScenario.reservedGroups.length = 0 ∧
    (fillRequestGroupFromReserver quietCollaborators conservationWrapScenario).man.requestGroups
      = conservationWrapScenario.requestGroups ++ [sampleGroup 3, sampleGroup 4] ∧
    (fillRequestGroupFromReserver quietCollaborators
      conservationWrapScenario).man.reservedGroups = [] := by
  decide

/-- Claim C20, amended: for every state in which the sweep retires nothing
(every active group has outstanding commands), `fillRequestGroupFromReserver`
returns and, whichever command creations fail, `active ++ reserved`
afterwards is a permutation of `active ++ reserved` before and the old active
list is an initial segment of the new one; it takes exactly the first
`min(max(s, 0), len(reserved))` entries of the reserved queue (the resolved
ones join the active list, the unresolved ones return to the front of the
remaining entries), `s` being the `int32_t` slot count
`int32(maxConcurrent - len(active))`; and `s` is
`maxConcurrent - len(active)`, so that this number is
`min(max(maxConcurrent - len(active), 0), len(reserved))`, whenever the
ceiling is an `int32_t` and `maxConcurrent - len(active)` does not fall below
`INT32_MIN`. -/
theorem fill_conserves_tasks (c : Collaborators) (m : RequestGroupMan)
    (hrun : ∀ g ∈ m.requestGroups, g.numCommand > 0) :
    (fillRequestGroupFromReserver c m).escaped = false ∧
    ((fillRequestGroupFromReserver c m).man.requestGroups
        ++ (fillRequestGroupFromReserver c m).man.reservedGroups).Perm
      (m.requestGroups ++ m.reservedGroups) ∧
    m.requestGroups <+: (fillRequestGroupFromReserver c m).man.requestGroups ∧
    (fillRequestGroupFromReserver c m).man.requestGroups
      = m.requestGroups
        ++ (m.reservedGroups.take
              (min (max (slots m) 0).toNat m.reservedGroups.length)).filter
            (fun g => g.dependencyResolved) ∧
    (fillRequestGroupFromReserver c m).man.reservedGroups
      = (m.reservedGroups.take
              (min (max (slots m) 0).toNat m.reservedGroups.length)).filter
            (fun g => !g.dependencyResolved)
        ++ m.reservedGroups.drop (min (max (slots m) 0).toNat m.reservedGroups.length) ∧
    (m.maxSimultaneousDownloads < 2147483648 →
      -2147483648 ≤ m.maxSimultaneousDownloads - (m.requestGroups.length : Int) →
        slots m = m.maxSimultaneousDownloads - (m.requestGroups.length : Int) ∧
        min (max (slots m) 0).toNat m.reservedGroups.length
          = min (max (m.maxSimultaneousDownloads - (m.requestGroups.length : Int)) 0).toNat
              m.reservedGroups.length) := by
  obtain ⟨hesc, hA, hR, _⟩ := removeStoppedGroup_of_all_running c m hrun
  have hM := removeStoppedGroup_max c m
  have hfa := fill_requestGroups c m hesc
  have hfr := fill_reservedGroups c m hesc
  have hslots : slots (removeStoppedGroup c m).man = slots m := by
    unfold slots
    rw [hM, hA]
  have hk : scanCount (slots (removeStoppedGroup c m).man)
        (removeStoppedGroup c m).man.reservedGroups
      = min (max (slots m) 0).toNat m.reservedGroups.length := by
    rw [hslots, hR]
    unfold scanCount
    congr 1
    omega
  rw [hk, hA, hR] at hfa
  rw [hk, hR] at hfr
  have hescf : (fillRequestGroupFromReserver c m).escaped = false := by
    unfold fillRequestGroupFromReserver
    simp [hesc]
  refine ⟨hescf, ?_, ?_, hfa, hfr, ?_⟩
  · rw [hfa, hfr, List.append_assoc]
    apply List.Perm.append_left
    rw [← List.append_assoc]
    have hsplit := List.take_append_drop
      (min (max (slots m) 0).toNat m.reservedGroups.length) m.reservedGroups
    conv_rhs => rw [← hsplit]
    apply List.Perm.append_right
    exact List.filter_append_perm _ _
  · rw [hfa]
    exact ⟨_, rfl⟩
  · intro hmax hlow
    have hs : slots m = m.maxSimultaneousDownloads - (m.requestGroups.length : Int) := by
      unfold slots
      apply toInt32_eq_self <;> omega
    exact ⟨hs, by rw [hs]⟩

/-- The amended claim C20 at two concrete states.  Ceiling 4, one running
group, reserved `T1` (creation fails), `D3` (unresolved), `T4`, `T5`, `T6`:
the slot count is 3, three entries are taken, `T1` and `T4` join the active
list, `D3` returns to the front of the queue.  At the state with ceiling
`INT32_MIN + 1`, where the slot count wraps, the call still returns and
conserves the tasks. -/
theorem fill_conserves_tasks_witness :
    (fillRequestGroupFromReserver failingCommandCollaborators
        conservationScenario).man.requestGroups
      = [{ sampleGroup 7 with numCommand := 1 }, sampleGroup 1, sampleGroup 4] ∧
    (fillRequestGroupFromReserver failingCommandCollaborators
        conservationScenario).man.reservedGroups
      = [{ sampleGroup 3 with dependencyResolved := false }, sampleGroup 5, sampleGroup 6] ∧
    slots conservationScenario = 3 ∧
    (fillRequestGroupFromReserver quietCollaborators conservationWrapScenario).escaped
      = false ∧
    ((fillRequestGroupFromReserver quietCollaborators conservationWrapScenario).man.requestGroups
        ++ (fillRequestGroupFromReserver quietCollaborators
              conservationWrapScenario).man.reservedGroups).Perm
      (conservationWrapScenario.requestGroups ++ conservationWrapScenario.reservedGroups) :=
  ⟨(fill_conserves_tasks failingCommandCollaborators conservationScenario
      (by decide)).2.2.2.1.trans (by decide),
   (fill_conserves_tasks failingCommandCollaborators conservationScenario
      (by decide)).2.2.2.2.1.trans (by decide),
   ((fill_conserves_tasks failingCommandCollaborators conservationScenario
      (by decide)).2.2.2.2.2 (by decide) (by decide)).1.trans (by decide),
   (fill_conserves_tasks quietCollaborators conservationWrapScenario (by decide)).1,
   (fill_conserves_tasks quietCollaborators conservationWrapScenario (by decide)).2.1⟩

/-! ## The single-container invariant on the runs that return -/

theorem nodup_map_of_subperm {l1 l2 : List RequestGroup} (h : l1.Subperm l2)
    (hn : (l2.map (fun g => g.addr)).Nodup) : (l1.map (fun g => g.addr)).Nodup := by
  obtain ⟨l, hp, hs⟩ := h
  exact ((hp.map _).nodup_iff).mp (List.Nodup.sublist (hs.map _) hn)

theorem singleContainer_addRequestGroup (m : RequestGroupMan) (g : RequestGroup)
    (h : singleContainer m)
    (hfresh : ∀ x ∈ m.requestGroups ++ m.reservedGroups ++ m.spentGroups, x.addr ≠ g.addr) :
    singleContainer (addRequestGroup m g) := by
  unfold singleContainer addRequestGroup at *
  have hp : (m.requestGroups ++ [g] ++ m.reservedGroups ++ m.spentGroups).Perm
      (g :: (m.requestGroups ++ m.reservedGroups ++ m.spentGroups)) := by
    have hshape : m.requestGroups ++ [g] ++ m.reservedGroups ++ m.spentGroups
        = m.requestGroups ++ g :: (m.reservedGroups ++ m.spentGroups) := by simp
    rw [hshape, List.append_assoc]
    exact List.perm_middle
  apply ((hp.map _).nodup_iff).mpr
  rw [List.map_cons, List.nodup_cons]
  refine ⟨?_, h⟩
  intro hmem
  obtain ⟨x, hx, hxa⟩ := List.mem_map.mp hmem
  exact hfresh x hx hxa

theorem singleContainer_addReservedGroup (m : RequestGroupMan) (g : RequestGroup)
    (h : singleContainer m)
    (hfresh : ∀ x ∈ m.requestGroups ++ m.reservedGroups ++ m.spentGroups, x.addr ≠ g.addr) :
    singleContainer (addReservedGroup m g) := by
  unfold singleContainer addReservedGroup at *
  have hp : (m.requestGroups ++ (m.reservedGroups ++ [g]) ++ m.spentGroups).Perm
      (g :: (m.requestGroups ++ m.reservedGroups ++ m.spentGroups)) := by
    have hshape : m.requestGroups ++ (m.reservedGroups ++ [g]) ++ m.spentGroups
        = (m.requestGroups ++ m.reservedGroups) ++ g :: m.spentGroups := by simp
    rw [hshape]
    exact List.perm_middle
  apply ((hp.map _).nodup_iff).mpr
  rw [List.map_cons, List.nodup_cons]
  refine ⟨?_, h⟩
  intro hmem
  obtain ⟨x, hx, hxa⟩ := List.mem_map.mp hmem
  exact hfresh x hx hxa

theorem singleContainer_addReservedGroups (m : RequestGroupMan) (groups : List RequestGroup)
    (h : ((groups ++ (m.requestGroups ++ m.reservedGroups ++ m.spentGroups)).map
            (fun g => g.addr)).Nodup) :
    singleContainer (addReservedGroups m groups) := by
  unfold singleContainer addReservedGroups
  have hp : (m.requestGroups ++ (m.reservedGroups ++ groups) ++ m.spentGroups).Perm
      (groups ++ (m.requestGroups ++ m.reservedGroups ++ m.spentGroups)) := by
    rw [← Multiset.coe_eq_coe]
    simp only [← Multiset.coe_add]
    abel
  exact ((hp.map _).nodup_iff).mpr h

theorem singleContainer_removeStoppedGroup (c : Collaborators) (m : RequestGroupMan)
    (hret : (removeStoppedGroup c m).escaped = false)
    (h : ((followUpBlocks c (m.requestGroups.filter isStoppedFinished)
            ++ (m.requestGroups ++ m.reservedGroups ++ m.spentGroups)).map
              (fun g => g.addr)).Nodup) :
    singleContainer (removeStoppedGroup c m).man := by
  obtain ⟨h1, h2, _⟩ := removeStoppedGroup_ok c m hret
  obtain ⟨h3, _, _⟩ := removeStoppedGroup_ok_chain c m hret
  unfold singleContainer
  rw [h1, h2, h3]
  have hA := List.filter_append_perm isRunning m.requestGroups
  have hp : (m.requestGroups.filter isRunning
        ++ (followUpBlocks c (m.requestGroups.filter isStoppedFinished) ++ m.reservedGroups)
        ++ (m.spentGroups ++ m.requestGroups.filter (fun g => !isRunning g))).Perm
      (followUpBlocks c (m.requestGroups.filter isStoppedFinished)
        ++ (m.requestGroups ++ m.reservedGroups ++ m.spentGroups)) := by
    rw [← Multiset.coe_eq_coe] at hA ⊢
    simp only [← Multiset.coe_add] at hA ⊢
    rw [← hA]
    abel
  exact ((hp.map _).nodup_iff).mpr h

theorem singleContainer_fill (c : Collaborators) (m : RequestGroupMan)
    (hret : (removeStoppedGroup c m).escaped = false)
    (h : ((followUpBlocks c (m.requestGroups.filter isStoppedFinished)
            ++ (m.requestGroups ++ m.reservedGroups ++ m.spentGroups)).map
              (fun g => g.addr)).Nodup) :
    singleContainer (fillRequestGroupFromReserver c m).man := by
  have hs := singleContainer_removeStoppedGroup c m hret h
  unfold singleContainer at hs ⊢
  rw [fill_requestGroups c m hret, fill_reservedGroups c m hret, fill_spentGroups c m]
  generalize scanCount (slots (removeStoppedGroup c m).man)
    (removeStoppedGroup c m).man.reservedGroups = k
  have hT := List.filter_append_perm (fun g : RequestGroup => g.dependencyResolved)
    ((removeStoppedGroup c m).man.reservedGroups.take k)
  have hsplit := List.take_append_drop k (removeStoppedGroup c m).man.reservedGroups
  have hp : ((removeStoppedGroup c m).man.requestGroups
        ++ ((removeStoppedGroup c m).man.reservedGroups.take k).filter
              (fun g => g.dependencyResolved)
        ++ (((removeStoppedGroup c m).man.reservedGroups.take k).filter
              (fun g => !g.dependencyResolved)
            ++ (removeStoppedGroup c m).man.reservedGroups.drop k)
        ++ (removeStoppedGroup c m).man.spentGroups).Perm
      ((removeStoppedGroup c m).man.requestGroups
        ++ ((removeStoppedGroup c m).man.reservedGroups.take k
            ++ (removeStoppedGroup c m).man.reservedGroups.drop k)
        ++ (removeStoppedGroup c m).man.spentGroups) := by
    rw [← Multiset.coe_eq_coe] at hT ⊢
    simp only [← Multiset.coe_add] at hT ⊢
    rw [← hT]
    abel
  rw [hsplit] at hp
  exact ((hp.map _).nodup_iff).mpr hs

theorem filter_pair_subperm (p q : RequestGroup → Bool) (hpq : ∀ g, p g = true → q g = false)
    (l : List RequestGroup) : (l.filter p ++ (l.filter q).reverse).Subperm l := by
  have hrev : (l.filter p ++ (l.filter q).reverse).Perm (l.filter p ++ l.filter q) :=
    List.Perm.append_left _ (List.reverse_perm _)
  apply (List.Perm.subperm_right hrev).mpr
  clear hrev
  induction l with
  | nil => exact List.Subperm.refl _
  | cons a rest ih =>
    cases hp : p a with
    | true =>
      have hq := hpq a hp
      simp only [List.filter_cons, hp, hq, if_true, List.cons_append, Bool.false_eq_true,
        if_false]
      exact (List.subperm_cons a).mpr ih
    | false =>
      cases hq : q a with
      | true =>
        simp only [List.filter_cons, hp, hq, if_true, Bool.false_eq_true, if_false]
        exact (List.Perm.subperm_right List.perm_middle).mpr ((List.subperm_cons a).mpr ih)
      | false =>
        simp only [List.filter_cons, hp, hq, Bool.false_eq_true, if_false]
        exact ih.trans (List.sublist_cons_self a rest).subperm

theorem singleContainer_getInitialCommands (c : Collaborators) (m : RequestGroupMan)
    (h : singleContainer m) : singleContainer (getInitialCommands c m).1.man := by
  obtain ⟨_, _, ha, hr, hs, _⟩ := getInitialCommands_eq c m
  unfold singleContainer at h ⊢
  rw [ha, hr, hs]
  apply nodup_map_of_subperm _ h
  have hsub := filter_pair_subperm (isStarted c) (fun g => !g.dependencyResolved)
    (fun g hg => by
      simp only [isStarted, Bool.and_eq_true] at hg
      simp [hg.1]) m.requestGroups
  rw [← List.append_assoc, List.append_assoc (_ ++ _), List.append_assoc m.requestGroups]
  exact (List.subperm_append_right _).mpr hsub

theorem singleContainer_save (c : Collaborators) (m : RequestGroupMan)
    (h : singleContainer m) : singleContainer (save c m).man := by
  have hman : (save c m).man = m := by
    unfold save
    split <;> rfl
  rw [hman]
  exact h

theorem spentGroups_only_grow (c : Collaborators) (m : RequestGroupMan) :
    m.spentGroups <+: (removeStoppedGroup c m).man.spentGroups ∧
    m.spentGroups <+: (fillRequestGroupFromReserver c m).man.spentGroups ∧
    m.spentGroups <+: (getInitialCommands c m).1.man.spentGroups ∧
    m.spentGroups <+: (save c m).man.spentGroups := by
  have hsweep : m.spentGroups <+: (removeStoppedGroup c m).man.spentGroups := by
    cases hesc : (removeStoppedGroup c m).escaped with
    | false =>
      rw [(removeStoppedGroup_ok c m hesc).2.1]
      exact ⟨_, rfl⟩
    | true =>
      obtain ⟨pre, g, post, _, _, _, _, hsp, _⟩ := removeStoppedGroup_escaped c m hesc
      rw [hsp]
      exact ⟨_, rfl⟩
  refine ⟨hsweep, ?_, ⟨[], by simp [getInitialCommands]⟩, ?_⟩
  · rw [fill_spentGroups]
    exact hsweep
  · have hman : (save c m).man = m := by
      unfold save
      split <;> rfl
    rw [hman]

end Aria2
